import Mathlib

/-!
Verification of the GCC Recorder capture pipeline.

This development gives a shallow embedding of the core of the
`gcc_recorder` repository (files `src/GCCRecorder/core.py`,
`src/GCCRecorder/usb_stream_processer.py`, `src/GCCRecorder/usb_stream_recorder.py`
and `src/GCCRecorder/gc_conversion.py`) and proves or refutes the
specification claims about it.

Machine bytes are modelled as natural numbers (values below 256 where the
code produces them), byte streams as `List ℕ`, and timestamps as exact
rationals.  Fallible or stateful code is modelled by explicit state
passing.  All definitions are executable.
-/

namespace GCC

/-- Little-endian value of a list of bytes, as read by `struct.unpack`
with the `<` format on the target platform. -/
def leVal : List ℕ → ℕ
  | [] => 0
  | b :: r => b + 256 * leVal r

/-- Read an `n`-byte little-endian field at offset `off` of a byte list.
This models one field of `struct.unpack(f'<QBBBBHBBQLLLLQ', ...)`. -/
def readLE (ws : List ℕ) (off n : ℕ) : ℕ :=
  leVal (((ws.drop off).take n))

/-- Encode a value as `n` little-endian bytes (how the usbmon binary
stream lays out each header field on a little-endian host). -/
def toLE : ℕ → ℕ → List ℕ
  | 0, _ => []
  | n + 1, v => (v % 256) :: toLE n (v / 256)

/-- Little-endian base-10 digits of `n`, with an explicit fuel so that the
definition is structurally recursive and kernel-reducible.  `fuel = 32`
suffices for every value below `10^32`. -/
def digitsRevAux : ℕ → ℕ → List ℕ
  | 0, _ => []
  | _ + 1, 0 => []
  | fuel + 1, n + 1 => ((n + 1) % 10) :: digitsRevAux fuel ((n + 1) / 10)

/-- Digit list of Python's `str(n)`, most significant digit first. -/
def strDigits (n : ℕ) : List ℕ :=
  if n = 0 then [0] else (digitsRevAux 32 n).reverse

/-- Python's `str(usec).zfill(6)`: pad with zeros on the left to length 6. -/
def zfill6 (n : ℕ) : List ℕ :=
  List.replicate (6 - (strDigits n).length) 0 ++ strDigits n

/-- Value of a decimal digit string, most significant digit first. -/
def digitsVal (l : List ℕ) : ℕ :=
  l.foldl (fun a d => a * 10 + d) 0

/-- Exact rational value of the decimal string `f"{sec}.{str(usec).zfill(6)}"`
parsed by `float(...)` in `format_packet`. -/
def parsedTime (sec usec : ℕ) : ℚ :=
  (sec : ℚ) + (digitsVal (zfill6 usec) : ℚ) / (10 : ℚ) ^ (zfill6 usec).length

/-! ### Rounding

`record_data` applies Python's `round(x, 6)`; on exact values this is
round-half-to-even at six decimal places. -/

/-- Round-half-to-even to the nearest integer. -/
def rhe (q : ℚ) : ℤ :=
  if q - ⌊q⌋ < 1 / 2 then ⌊q⌋
  else if 1 / 2 < q - ⌊q⌋ then ⌊q⌋ + 1
  else if Even ⌊q⌋ then ⌊q⌋ else ⌊q⌋ + 1

/-- Python's `round(q, 6)` on an exact rational value. -/
def roundPy (q : ℚ) : ℚ :=
  (rhe (q * 10 ^ 6) : ℚ) / 10 ^ 6

/-! ### gc_conversion.py -/

/-- Mirror of `PacketData` from `gc_conversion.py`: a timestamp together
with the payload bytes queued by the framer. -/
structure PacketData where
  timestamp : ℚ
  data : List ℕ
  deriving DecidableEq, Repr

/-- Mirror of `PacketData.player_data`: index 0 is the full data, indices
1 to 4 are `data[:9]`, `data[9:18]`, `data[18:27]`, `data[27:36]`. -/
def PacketData.playerData (p : PacketData) (port : ℕ) : List ℕ :=
  match port with
  | 1 => p.data.take 9
  | 2 => (p.data.drop 9).take 9
  | 3 => (p.data.drop 18).take 9
  | 4 => (p.data.drop 27).take 9
  | _ => p.data

/-- Mirror of `CaptureData.data_format`, the header row of the output file. -/
def dataFormat : String :=
  "TIMESTAMP,A,B,X,Y,Z,START,R,R_PRESSURE,L,L_PRESSURE,LEFT_STICK_X,LEFT_STICK_Y,C_STICK_X,C_STICK_Y,DPAD_LEFT,DPAD_RIGHT,DPAD_UP,DPAD_DOWN"

/-- Mirror of `CaptureData.set_face_buttons`: the right digit of byte 1,
decoded LSB-first into (A, B, X, Y). -/
def setFaceButtons (d1 : ℕ) : ℕ × ℕ × ℕ × ℕ :=
  let val := d1 % 16
  let a := val % 2
  let val := val / 2
  let b := val % 2
  let val := val / 2
  let x := val % 2
  let val := val / 2
  let y := val % 2
  (a, b, x, y)

/-- Mirror of `CaptureData.set_dpad`: the left digit of byte 1, decoded
LSB-first into (DPadLeft, DPadRight, DPadDown, DPadUp). -/
def setDpad (d1 : ℕ) : ℕ × ℕ × ℕ × ℕ :=
  let val := d1 / 16
  let dpadLeft := val % 2
  let val := val / 2
  let dpadRight := val % 2
  let val := val / 2
  let dpadDown := val % 2
  let val := val / 2
  let dpadUp := val % 2
  (dpadLeft, dpadRight, dpadDown, dpadUp)

/-- Mirror of `CaptureData.set_other_buttons`: the right digit of byte 2,
decoded LSB-first into (Start, Z, R, L). -/
def setOtherButtons (d2 : ℕ) : ℕ × ℕ × ℕ × ℕ :=
  let val := d2 % 16
  let start := val % 2
  let val := val / 2
  let z := val % 2
  let val := val / 2
  let r := val % 2
  let val := val / 2
  let l := val % 2
  (start, z, r, l)

/-- Decoded controller fields of one port, mirroring the attributes set by
`CaptureData.parse_packet`. -/
structure PortState where
  isConnected : Bool
  a : ℕ
  b : ℕ
  x : ℕ
  y : ℕ
  z : ℕ
  start : ℕ
  r : ℕ
  rPressure : ℕ
  l : ℕ
  lPressure : ℕ
  leftStickX : ℕ
  leftStickY : ℕ
  cStickX : ℕ
  cStickY : ℕ
  dpadLeft : ℕ
  dpadRight : ℕ
  dpadUp : ℕ
  dpadDown : ℕ
  deriving DecidableEq, Repr

/-- Mirror of `CaptureData.parse_packet` on the 9-byte slice of one port:
`check_connection`, the three button decoders, and the raw byte fields. -/
def parsePort (data : List ℕ) : PortState :=
  let fb := setFaceButtons (data.getD 1 0)
  let dp := setDpad (data.getD 1 0)
  let ob := setOtherButtons (data.getD 2 0)
  { isConnected := decide (data.getD 0 0 > 16)
    a := fb.1
    b := fb.2.1
    x := fb.2.2.1
    y := fb.2.2.2
    start := ob.1
    z := ob.2.1
    r := ob.2.2.1
    l := ob.2.2.2
    leftStickX := data.getD 3 0
    leftStickY := data.getD 4 0
    cStickX := data.getD 5 0
    cStickY := data.getD 6 0
    lPressure := data.getD 7 0
    rPressure := data.getD 8 0
    dpadLeft := dp.1
    dpadRight := dp.2.1
    dpadDown := dp.2.2.1
    dpadUp := dp.2.2.2 }

/-! ### core.py / usb_stream_processer.py — the Framer/Filter -/

/-- Immutable capture parameters seen by the pipeline stages. -/
structure Config where
  busNumber : ℕ
  deviceNumber : ℕ
  duration : ℚ
  playerPort : ℕ
  deriving DecidableEq, Repr

/-- Python truthiness update `if not time_start: time_start = packet_time`:
`None` and `0.0` are falsy. -/
def latchTs (ts : Option ℚ) (t : ℚ) : ℚ :=
  match ts with
  | none => t
  | some v => if v = 0 then t else v

/-- Why one pass of the inner `while i < len(workspace)` loop of
`format_packet` stopped. -/
inductive LoopExit
  | wait
  | abort
  | durBreak
  deriving DecidableEq, Repr

/-- Result of one batch of the inner loop of `format_packet`: the packets
appended to `input_truck`, the kept workspace suffix `workspace[i:]`, the
updated `time_start`, and the stop reason. -/
structure LoopResult where
  truck : List PacketData
  rest : List ℕ
  timeStart : Option ℚ
  exit : LoopExit
  deriving DecidableEq, Repr

/-- One step of the inner loop of `format_packet`, with the recursive call
abstracted as `recur`.  The branch structure follows the source: the
48-byte availability check, the `bus_id` alignment check, the ISO length
adjustment, the `data_length == 0` skip, the completeness check, the
device filter, and the emission with the duration cut. -/
def formatBody (cfg : Config) (recur : List ℕ → Option ℚ → LoopResult)
    (ws : List ℕ) (ts : Option ℚ) : LoopResult :=
  if ws.length < 48 then ⟨[], ws, ts, LoopExit.wait⟩
  else if readLE ws 12 2 ≠ cfg.busNumber then ⟨[], ws, ts, LoopExit.abort⟩
  else
    let isoLen : ℕ := if readLE ws 9 1 = 0 then 16 else 0
    let dataLength := readLE ws 36 4
    if dataLength = 0 then recur (ws.drop (48 + isoLen)) ts
    else
      let pl := 48 + isoLen + dataLength
      if ws.length < pl then ⟨[], ws, ts, LoopExit.wait⟩
      else if readLE ws 11 1 ≠ cfg.deviceNumber then recur (ws.drop pl) ts
      else
        let t := parsedTime (readLE ws 16 8) (readLE ws 24 4)
        let v := latchTs ts t
        let pkt : PacketData := ⟨t, (ws.take pl).drop (pl - dataLength + 1)⟩
        if cfg.duration < t - v then ⟨[pkt], ws.drop pl, some v, LoopExit.durBreak⟩
        else
          let r := recur (ws.drop pl) (some v)
          ⟨pkt :: r.truck, r.rest, r.timeStart, r.exit⟩

/-- Fuel-indexed inner loop; `fuel ≥ ws.length` always suffices because
every advance consumes at least 48 bytes. -/
def formatLoopF (cfg : Config) : ℕ → List ℕ → Option ℚ → LoopResult
  | 0, ws, ts => ⟨[], ws, ts, LoopExit.wait⟩
  | fuel + 1, ws, ts => formatBody cfg (formatLoopF cfg fuel) ws ts

/-- The inner loop of `format_packet` run on a workspace, starting at
cursor 0 with `input_truck = []`. -/
def formatLoop (cfg : Config) (ws : List ℕ) (ts : Option ℚ) : LoopResult :=
  formatLoopF cfg ws.length ws ts

/-- State of the framer thread between iterations of its outer loop. -/
structure FramerState where
  ws : List ℕ
  ts : Option ℚ
  qOut : List PacketData
  aborted : Bool
  deriving DecidableEq, Repr

/-- One iteration of the outer loop of `format_packet` consuming one taken
chunk.  An empty take leads to waiting (or termination), not parsing; the
`input_truck` is published to the queue even when the pass set `abort`. -/
def framerStep (cfg : Config) (st : FramerState) (chunk : List ℕ) : FramerState :=
  if st.aborted then st
  else if chunk.isEmpty then st
  else
    let r := formatLoop cfg (st.ws ++ chunk) st.ts
    { ws := r.rest
      ts := r.timeStart
      qOut := st.qOut ++ r.truck
      aborted := decide (r.exit = LoopExit.abort) }

/-- Run of the framer on a sequence of chunks delivered in order. -/
def runFramer (cfg : Config) (chunks : List (List ℕ)) : FramerState :=
  chunks.foldl (framerStep cfg) ⟨[], none, [], false⟩

/-! ### URB records -/

/-- A USB Request Block as laid out on the usbmon binary stream.  The
`data_length` header field is the length of `payload`; `iso` is the
16-byte ISO descriptor block present exactly when `transferType = 0`. -/
structure URB where
  urbId : ℕ
  urbType : ℕ
  transferType : ℕ
  endpoint : ℕ
  deviceNumber : ℕ
  busId : ℕ
  setupFlag : ℕ
  dataFlag : ℕ
  tsSec : ℕ
  tsUsec : ℕ
  status : ℕ
  lengthUrb : ℕ
  trailer : ℕ
  iso : List ℕ
  payload : List ℕ
  deriving DecidableEq, Repr

/-- The 48-byte record header, fields in usbmon `mon_bin` order. -/
def URB.header (u : URB) : List ℕ :=
  toLE 8 u.urbId ++ (toLE 1 u.urbType ++ (toLE 1 u.transferType ++
  (toLE 1 u.endpoint ++ (toLE 1 u.deviceNumber ++ (toLE 2 u.busId ++
  (toLE 1 u.setupFlag ++ (toLE 1 u.dataFlag ++ (toLE 8 u.tsSec ++
  (toLE 4 u.tsUsec ++ (toLE 4 u.status ++ (toLE 4 u.lengthUrb ++
  (toLE 4 u.payload.length ++ toLE 8 u.trailer))))))))))))

/-- Byte encoding of one record: header, optional ISO block, payload. -/
def URB.encode (u : URB) : List ℕ :=
  u.header ++ (u.iso ++ u.payload)

/-- Well-formedness of a record: header fields fit their widths and the
ISO block has the length implied by the transfer type. -/
def URB.wfRec (u : URB) : Prop :=
  u.busId < 2 ^ 16 ∧ u.transferType < 2 ^ 8 ∧ u.deviceNumber < 2 ^ 8 ∧
  u.tsSec < 2 ^ 64 ∧ u.tsUsec < 2 ^ 32 ∧ u.payload.length < 2 ^ 32 ∧
  u.iso.length = (if u.transferType = 0 then 16 else 0)

instance (u : URB) : Decidable u.wfRec :=
  inferInstanceAs (Decidable (_ ∧ _ ∧ _ ∧ _ ∧ _ ∧ _ ∧ _))

/-- The framer's filter: a record reaches the queue iff its data length is
nonzero and its device number matches the configuration. -/
def URB.accepted (cfg : Config) (u : URB) : Prop :=
  u.payload.length ≠ 0 ∧ u.deviceNumber = cfg.deviceNumber

instance (cfg : Config) (u : URB) : Decidable (u.accepted cfg) :=
  inferInstanceAs (Decidable (_ ∧ _))

/-- Timestamp the framer computes for a record. -/
def URB.time (u : URB) : ℚ := parsedTime u.tsSec u.tsUsec

/-- The queued payload of a record: all payload bytes except the first. -/
def URB.packet (u : URB) : PacketData := ⟨u.time, u.payload.drop 1⟩

/-- Packets one record contributes to the queue. -/
def URB.emission (cfg : Config) (u : URB) : List PacketData :=
  if u.accepted cfg then [u.packet] else []

/-- Packets a record list contributes to the queue, in order. -/
def joinEmissions (cfg : Config) (recs : List URB) : List PacketData :=
  (recs.map (URB.emission cfg)).flatten

/-- The `time_start` latch after filtering one record. -/
def latchAcc (cfg : Config) (ts : Option ℚ) (u : URB) : Option ℚ :=
  if u.accepted cfg then some (latchTs ts u.time) else ts

/-- The `time_start` latch after filtering a record list. -/
def threadTs (cfg : Config) (ts : Option ℚ) (recs : List URB) : Option ℚ :=
  recs.foldl (latchAcc cfg) ts

/-- No record of the list triggers the framer's duration cut when
processing starts from latch state `ts`. -/
def noCut (cfg : Config) : Option ℚ → List URB → Bool
  | _, [] => true
  | ts, u :: rest =>
      (!(decide (u.accepted cfg)) || decide (u.time - latchTs ts u.time ≤ cfg.duration)) &&
      noCut cfg (latchAcc cfg ts u) rest

/-! ### core.py / usb_stream_recorder.py — the Decoder/Recorder -/

/-- Environment of one iteration of the `record_data` loop: the state of
the abort signal at the loop head, the batch taken from the queue, and the
state of `end_packet` observed if the batch is empty. -/
structure RecordStep where
  abortNow : Bool
  batch : List PacketData
  endPacket : Bool
  deriving DecidableEq, Repr

/-- One line written to the output sink. -/
inductive OutLine
  | headerRow (s : String)
  | row (t : ℚ) (ps : PortState)
  deriving DecidableEq, Repr

/-- TIMESTAMP column of one output line. -/
def OutLine.rowTime : OutLine → ℚ
  | headerRow _ => 0
  | row t _ => t

/-- The `for elmt in items` body of `record_data`: latch the epoch on the
first truthy timestamp, subtract it, round to six decimals, decode the
port slice, and write one row per packet.  Returns the rows and the
updated epoch. -/
def processBatch (port : ℕ) : Option ℚ → List PacketData → List OutLine × Option ℚ
  | ep, [] => ([], ep)
  | ep, pkt :: rest =>
      let e := latchTs ep pkt.timestamp
      let t := roundPy (pkt.timestamp - e)
      let pr := processBatch port (some e) rest
      (OutLine.row t (parsePort (PacketData.playerData ⟨t, pkt.data⟩ port)) :: pr.1, pr.2)

/-- The `while True` loop of `record_data`: return on abort, stop on an
empty take with `end_packet` set, otherwise write the batch's rows. -/
def recordLoop (port : ℕ) : Option ℚ → List RecordStep → List OutLine
  | _, [] => []
  | ep, step :: rest =>
      if step.abortNow then []
      else if step.batch.isEmpty then
        if step.endPacket then [] else recordLoop port ep rest
      else
        let pr := processBatch port ep step.batch
        pr.1 ++ recordLoop port pr.2 rest

/-- All lines `record_data` writes to the output file: the header row is
written immediately after opening the file, before the loop runs. -/
def recordData (port : ℕ) (steps : List RecordStep) : List OutLine :=
  OutLine.headerRow dataFormat :: recordLoop port none steps

/-! ### App.__init__ -/

/-- Configuration stored on the `App` object. -/
structure AppConfig where
  deviceNumber : ℕ
  busNumber : ℕ
  usbmonFile : String
  outputFile : String
  duration : ℚ
  playerPort : ℕ
  deriving DecidableEq, Repr

/-- Mirror of `App.__init__(device_number, bus_number, player_port,
output_file, duration)` from `core.py`: the device and bus fields are
assigned the literals 7 and 3 (the `# Hard code` lines), not the supplied
parameters, and the usbmon path is derived from the stored bus. -/
def appInit (device_number bus_number player_port : ℕ) (output_file : String)
    (duration : ℚ) : AppConfig :=
  let dev : ℕ := 7
  let bus : ℕ := 3
  { deviceNumber := dev
    busNumber := bus
    usbmonFile := "/dev/usbmon" ++ toString bus
    outputFile := output_file
    duration := duration
    playerPort := player_port }

/-! ### Unfolding the framer loop -/

/-- Records fully contained in a byte sequence that starts at a record
boundary. -/
def takeRecs : List URB → List ℕ → List URB
  | [], _ => []
  | u :: rest, ws =>
      if (URB.encode u).length ≤ ws.length then
        u :: takeRecs rest (ws.drop (URB.encode u).length)
      else []

/-- Records not yet fully contained in the byte sequence. -/
def dropRecs : List URB → List ℕ → List URB
  | [], _ => []
  | u :: rest, ws =>
      if (URB.encode u).length ≤ ws.length then
        dropRecs rest (ws.drop (URB.encode u).length)
      else u :: rest

/-- Bytes left over after removing all fully contained records. -/
def restBytes : List URB → List ℕ → List ℕ
  | [], ws => ws
  | u :: rest, ws =>
      if (URB.encode u).length ≤ ws.length then
        restBytes rest (ws.drop (URB.encode u).length)
      else ws

/-- Hypotheses on a record shared by the stream-level theorems: it is
well formed, carries the configured bus id, and is not an isochronous
record with empty data. -/
def streamOK (cfg : Config) (recs : List URB) : Prop :=
  ∀ u ∈ recs, u.wfRec ∧ u.busId = cfg.busNumber ∧
    ¬(u.transferType = 0 ∧ u.payload.length = 0)

instance (cfg : Config) (recs : List URB) : Decidable (streamOK cfg recs) :=
  inferInstanceAs (Decidable (∀ u ∈ recs, _ ∧ _ ∧ _))

/-- Scenario configuration: bus 3, device 7, duration 10 s, port 1. -/
def cfgS : Config := ⟨3, 7, 10, 1⟩

/-- Deadline configuration: bus 3, device 7, duration 1 s, port 1. -/
def cfgD : Config := ⟨3, 7, 1, 1⟩

/-- Scenario 1 payload: report-id byte `0xAA`, then the 36 adapter bytes
with port 1 = `[0x14, 0x01, 0x02, 0x80, 0x80, 0x80, 0x80, 0x00, 0xFF]`. -/
def payloadA : List ℕ :=
  170 :: (20 :: 1 :: 2 :: 128 :: 128 :: 128 :: 128 :: 0 :: 255 :: List.replicate 27 0)

/-- Scenario 1 record: bulk transfer, bus 3, device 7, 37 data bytes. -/
def urbA : URB :=
  { urbId := 0, urbType := 67, transferType := 1, endpoint := 0,
    deviceNumber := 7, busId := 3, setupFlag := 0, dataFlag := 0,
    tsSec := 100, tsUsec := 500000, status := 0, lengthUrb := 37, trailer := 0,
    iso := [], payload := payloadA }

/-- The scenario record with another timestamp. -/
def urbT (s us : ℕ) : URB := { urbA with tsSec := s, tsUsec := us }

/-- An isochronous record with `data_length = 0` (16-byte ISO descriptor
block, no payload). -/
def urbIso0 : URB :=
  { urbId := 0, urbType := 67, transferType := 0, endpoint := 0,
    deviceNumber := 7, busId := 3, setupFlag := 0, dataFlag := 0,
    tsSec := 99, tsUsec := 0, status := 0, lengthUrb := 0, trailer := 0,
    iso := List.replicate 16 0, payload := [] }

/-- Stream of the empty ISO record followed by the accepted record. -/
def sIso : List ℕ := urbIso0.encode ++ urbA.encode

/-- Scenario 5 stream: two accepted records at 100.000000 and 101.500001. -/
def sC3 : List ℕ := (urbT 100 0).encode ++ ((urbT 101 500001).encode ++ [])

/-- First two records of the deadline stream (100 s and 102 s). -/
def sD1 : List ℕ := (urbT 100 0).encode ++ (urbT 102 0).encode

/-- Three accepted records at 100 s, 102 s and 103 s with duration 1 s. -/
def sDead : List ℕ := sD1 ++ (urbT 103 0).encode

/-- The queued 36-byte payload of the scenario record. -/
def qPayload : List ℕ :=
  20 :: 1 :: 2 :: 128 :: 128 :: 128 :: 128 :: 0 :: 255 :: List.replicate 27 0

@[simp] theorem toLE_length (n v : ℕ) : (toLE n v).length = n := by
  induction n generalizing v with
  | zero => rfl
  | succ n ih => simp [toLE, ih]

theorem leVal_toLE (n v : ℕ) : leVal (toLE n v) = v % 256 ^ n := by
  induction n generalizing v with
  | zero => simp [toLE, leVal, Nat.mod_one]
  | succ n ih =>
      simp only [toLE, leVal, ih]
      rw [pow_succ', Nat.mod_mul]

theorem readLE_take (ws : List ℕ) (off n k : ℕ) (h : off + n ≤ k) :
    readLE (ws.take k) off n = readLE ws off n := by
  unfold readLE
  rw [List.drop_take, List.take_take, Nat.min_eq_left (by omega : n ≤ k - off)]

theorem readLE_skip (b l : List ℕ) (off n : ℕ) :
    readLE (b ++ l) (b.length + off) n = readLE l off n := by
  unfold readLE
  rw [List.drop_append]

theorem readLE_here (k v : ℕ) (l : List ℕ) :
    readLE (toLE k v ++ l) 0 k = v % 256 ^ k := by
  unfold readLE
  rw [List.drop_zero, List.take_left' (toLE_length k v), leVal_toLE]

/-! ### Timestamp parsing

`format_packet` computes `packet_time = float(f"{sec}.{str(usec).zfill(6)}")`.
We model the decimal string exactly: `strDigits` is the digit list of
Python's `str(usec)` (most significant first), `zfill6` the left
zero-padding, and `parsedTime` the exact rational value of the decimal
string `"<sec>.<padded usec>"`. -/

theorem formatBody_congr (cfg : Config) (r₁ r₂ : List ℕ → Option ℚ → LoopResult)
    (ws : List ℕ) (ts : Option ℚ)
    (h : ∀ ws' ts', ws'.length + 48 ≤ ws.length → r₁ ws' ts' = r₂ ws' ts') :
    formatBody cfg r₁ ws ts = formatBody cfg r₂ ws ts := by
  unfold formatBody
  by_cases h48 : ws.length < 48
  · simp only [if_pos h48]
  · simp only [if_neg h48]
    by_cases hbus : readLE ws 12 2 ≠ cfg.busNumber
    · simp only [if_pos hbus]
    · simp only [if_neg hbus]
      by_cases hdl : readLE ws 36 4 = 0
      · simp only [if_pos hdl]
        apply h
        simp only [List.length_drop]
        omega
      · simp only [if_neg hdl]
        by_cases hpl : ws.length < 48 + (if readLE ws 9 1 = 0 then 16 else 0) + readLE ws 36 4
        · simp only [if_pos hpl]
        · simp only [if_neg hpl]
          by_cases hdev : readLE ws 11 1 ≠ cfg.deviceNumber
          · simp only [if_pos hdev]
            apply h
            simp only [List.length_drop]
            omega
          · simp only [if_neg hdev]
            by_cases hdur : cfg.duration <
                parsedTime (readLE ws 16 8) (readLE ws 24 4) -
                  latchTs ts (parsedTime (readLE ws 16 8) (readLE ws 24 4))
            · simp only [if_pos hdur]
            · simp only [if_neg hdur]
              rw [h]
              simp only [List.length_drop]
              omega

theorem formatLoopF_nil (cfg : Config) (k : ℕ) (ts : Option ℚ) :
    formatLoopF cfg k [] ts = ⟨[], [], ts, LoopExit.wait⟩ := by
  cases k with
  | zero => rfl
  | succ k =>
      simp only [formatLoopF]
      unfold formatBody
      norm_num

theorem formatLoopF_congr (cfg : Config) :
    ∀ f g ws ts, ws.length ≤ f → ws.length ≤ g →
      formatLoopF cfg f ws ts = formatLoopF cfg g ws ts := by
  intro f
  induction f with
  | zero =>
      intro g ws ts hf hg
      have : ws = [] := List.length_eq_zero.mp (by omega)
      subst this
      rw [formatLoopF_nil, formatLoopF_nil]
  | succ f ih =>
      intro g ws ts hf hg
      cases g with
      | zero =>
          have : ws = [] := List.length_eq_zero.mp (by omega)
          subst this
          rw [formatLoopF_nil, formatLoopF_nil]
      | succ g =>
          simp only [formatLoopF]
          apply formatBody_congr
          intro ws' ts' hlen
          exact ih g ws' ts' (by omega) (by omega)

theorem formatLoop_eq (cfg : Config) (ws : List ℕ) (ts : Option ℚ) :
    formatLoop cfg ws ts = formatBody cfg (formatLoop cfg) ws ts := by
  unfold formatLoop
  rw [formatLoopF_congr cfg ws.length (ws.length + 1) ws ts le_rfl (by omega)]
  simp only [formatLoopF]
  apply formatBody_congr
  intro ws' ts' hlen
  exact formatLoopF_congr cfg ws.length ws'.length ws' ts' (by omega) le_rfl

theorem formatLoop_wait_short (cfg : Config) (ws : List ℕ) (ts : Option ℚ)
    (h : ws.length < 48) :
    formatLoop cfg ws ts = ⟨[], ws, ts, LoopExit.wait⟩ := by
  rw [formatLoop_eq]
  unfold formatBody
  rw [if_pos h]

theorem formatLoop_abort (cfg : Config) (ws : List ℕ) (ts : Option ℚ)
    (h48 : ¬ ws.length < 48) (hbus : readLE ws 12 2 ≠ cfg.busNumber) :
    formatLoop cfg ws ts = ⟨[], ws, ts, LoopExit.abort⟩ := by
  rw [formatLoop_eq]
  unfold formatBody
  rw [if_neg h48, if_pos hbus]

/-! ### Reading header fields of an encoded record -/

theorem readLE_skip' (b l : List ℕ) (off off' n : ℕ) (hb : b.length + off' = off) :
    readLE (b ++ l) off n = readLE l off' n := by
  subst hb
  exact readLE_skip b l off' n

@[simp] theorem URB.header_length (u : URB) : u.header.length = 48 := by
  simp [URB.header]

theorem URB.encode_length (u : URB) :
    u.encode.length = 48 + u.iso.length + u.payload.length := by
  simp [URB.encode]
  omega

theorem encode_append (u : URB) (rest : List ℕ) :
    u.encode ++ rest =
      toLE 8 u.urbId ++ (toLE 1 u.urbType ++ (toLE 1 u.transferType ++
      (toLE 1 u.endpoint ++ (toLE 1 u.deviceNumber ++ (toLE 2 u.busId ++
      (toLE 1 u.setupFlag ++ (toLE 1 u.dataFlag ++ (toLE 8 u.tsSec ++
      (toLE 4 u.tsUsec ++ (toLE 4 u.status ++ (toLE 4 u.lengthUrb ++
      (toLE 4 u.payload.length ++ (toLE 8 u.trailer ++
      (u.iso ++ (u.payload ++ rest))))))))))))))) := by
  simp [URB.encode, URB.header, List.append_assoc]

theorem readLE_encode_busId (u : URB) (rest : List ℕ) :
    readLE (u.encode ++ rest) 12 2 = u.busId % 2 ^ 16 := by
  rw [encode_append]
  rw [readLE_skip' _ _ _ 4 _ (by simp)]
  rw [readLE_skip' _ _ _ 3 _ (by simp)]
  rw [readLE_skip' _ _ _ 2 _ (by simp)]
  rw [readLE_skip' _ _ _ 1 _ (by simp)]
  rw [readLE_skip' _ _ _ 0 _ (by simp)]
  rw [readLE_here]
  norm_num

theorem readLE_encode_transferType (u : URB) (rest : List ℕ) :
    readLE (u.encode ++ rest) 9 1 = u.transferType % 2 ^ 8 := by
  rw [encode_append]
  rw [readLE_skip' _ _ _ 1 _ (by simp)]
  rw [readLE_skip' _ _ _ 0 _ (by simp)]
  rw [readLE_here]
  norm_num

theorem readLE_encode_deviceNumber (u : URB) (rest : List ℕ) :
    readLE (u.encode ++ rest) 11 1 = u.deviceNumber % 2 ^ 8 := by
  rw [encode_append]
  rw [readLE_skip' _ _ _ 3 _ (by simp)]
  rw [readLE_skip' _ _ _ 2 _ (by simp)]
  rw [readLE_skip' _ _ _ 1 _ (by simp)]
  rw [readLE_skip' _ _ _ 0 _ (by simp)]
  rw [readLE_here]
  norm_num

theorem readLE_encode_tsSec (u : URB) (rest : List ℕ) :
    readLE (u.encode ++ rest) 16 8 = u.tsSec % 2 ^ 64 := by
  rw [encode_append]
  rw [readLE_skip' _ _ _ 8 _ (by simp)]
  rw [readLE_skip' _ _ _ 7 _ (by simp)]
  rw [readLE_skip' _ _ _ 6 _ (by simp)]
  rw [readLE_skip' _ _ _ 5 _ (by simp)]
  rw [readLE_skip' _ _ _ 4 _ (by simp)]
  rw [readLE_skip' _ _ _ 2 _ (by simp)]
  rw [readLE_skip' _ _ _ 1 _ (by simp)]
  rw [readLE_skip' _ _ _ 0 _ (by simp)]
  rw [readLE_here]
  norm_num

theorem readLE_encode_tsUsec (u : URB) (rest : List ℕ) :
    readLE (u.encode ++ rest) 24 4 = u.tsUsec % 2 ^ 32 := by
  rw [encode_append]
  rw [readLE_skip' _ _ _ 16 _ (by simp)]
  rw [readLE_skip' _ _ _ 15 _ (by simp)]
  rw [readLE_skip' _ _ _ 14 _ (by simp)]
  rw [readLE_skip' _ _ _ 13 _ (by simp)]
  rw [readLE_skip' _ _ _ 12 _ (by simp)]
  rw [readLE_skip' _ _ _ 10 _ (by simp)]
  rw [readLE_skip' _ _ _ 9 _ (by simp)]
  rw [readLE_skip' _ _ _ 8 _ (by simp)]
  rw [readLE_skip' _ _ _ 0 _ (by simp)]
  rw [readLE_here]
  norm_num

theorem readLE_encode_dataLength (u : URB) (rest : List ℕ) :
    readLE (u.encode ++ rest) 36 4 = u.payload.length % 2 ^ 32 := by
  rw [encode_append]
  rw [readLE_skip' _ _ _ 28 _ (by simp)]
  rw [readLE_skip' _ _ _ 27 _ (by simp)]
  rw [readLE_skip' _ _ _ 26 _ (by simp)]
  rw [readLE_skip' _ _ _ 25 _ (by simp)]
  rw [readLE_skip' _ _ _ 24 _ (by simp)]
  rw [readLE_skip' _ _ _ 22 _ (by simp)]
  rw [readLE_skip' _ _ _ 21 _ (by simp)]
  rw [readLE_skip' _ _ _ 20 _ (by simp)]
  rw [readLE_skip' _ _ _ 12 _ (by simp)]
  rw [readLE_skip' _ _ _ 8 _ (by simp)]
  rw [readLE_skip' _ _ _ 4 _ (by simp)]
  rw [readLE_skip' _ _ _ 0 _ (by simp)]
  rw [readLE_here]
  norm_num

/-! ### One record consumed by the framer loop -/

theorem encode_slice (u : URB) (rest : List ℕ) :
    (((u.encode ++ rest).take (48 + u.iso.length + u.payload.length)).drop
        (48 + u.iso.length + u.payload.length - u.payload.length + 1)) =
      u.payload.drop 1 := by
  have htake : (u.encode ++ rest).take (48 + u.iso.length + u.payload.length) = u.encode :=
    List.take_left' (URB.encode_length u)
  rw [htake]
  have h1 : 48 + u.iso.length + u.payload.length - u.payload.length + 1 =
      u.header.length + (u.iso.length + 1) := by
    rw [URB.header_length]
    omega
  rw [h1]
  unfold URB.encode
  rw [List.drop_append]
  exact List.drop_append 1

theorem formatLoop_skip_empty (cfg : Config) (u : URB) (rest : List ℕ) (ts : Option ℚ)
    (hwf : u.wfRec) (hbus : u.busId = cfg.busNumber) (hdl0 : u.payload.length = 0) :
    formatLoop cfg (u.encode ++ rest) ts = formatLoop cfg rest ts := by
  obtain ⟨hb, htt, hdev, hsec, husec, hdl32, hiso⟩ := hwf
  rw [formatLoop_eq]
  unfold formatBody
  have h48 : ¬ (u.encode ++ rest).length < 48 := by
    rw [List.length_append, URB.encode_length]
    omega
  have hbus' : readLE (u.encode ++ rest) 12 2 = cfg.busNumber := by
    rw [readLE_encode_busId, Nat.mod_eq_of_lt hb, hbus]
  rw [if_neg h48, if_neg (not_not_intro hbus')]
  have hdlr : readLE (u.encode ++ rest) 36 4 = 0 := by
    rw [readLE_encode_dataLength, Nat.mod_eq_of_lt hdl32, hdl0]
  rw [if_pos hdlr]
  have htt' : readLE (u.encode ++ rest) 9 1 = u.transferType := by
    rw [readLE_encode_transferType, Nat.mod_eq_of_lt htt]
  rw [htt', ← hiso]
  have hlen : 48 + u.iso.length = u.encode.length := by
    rw [URB.encode_length, hdl0]
    omega
  rw [hlen, List.drop_left]

theorem formatLoop_skip_device (cfg : Config) (u : URB) (rest : List ℕ) (ts : Option ℚ)
    (hwf : u.wfRec) (hbus : u.busId = cfg.busNumber) (hdl0 : u.payload.length ≠ 0)
    (hdev : u.deviceNumber ≠ cfg.deviceNumber) :
    formatLoop cfg (u.encode ++ rest) ts = formatLoop cfg rest ts := by
  obtain ⟨hb, htt, hdevb, hsec, husec, hdl32, hiso⟩ := hwf
  rw [formatLoop_eq]
  unfold formatBody
  have h48 : ¬ (u.encode ++ rest).length < 48 := by
    rw [List.length_append, URB.encode_length]
    omega
  have hbus' : readLE (u.encode ++ rest) 12 2 = cfg.busNumber := by
    rw [readLE_encode_busId, Nat.mod_eq_of_lt hb, hbus]
  rw [if_neg h48, if_neg (not_not_intro hbus')]
  have hdlr : readLE (u.encode ++ rest) 36 4 = u.payload.length := by
    rw [readLE_encode_dataLength, Nat.mod_eq_of_lt hdl32]
  have htt' : readLE (u.encode ++ rest) 9 1 = u.transferType := by
    rw [readLE_encode_transferType, Nat.mod_eq_of_lt htt]
  rw [hdlr, if_neg hdl0, htt', ← hiso]
  have hpl : ¬ (u.encode ++ rest).length < 48 + u.iso.length + u.payload.length := by
    rw [List.length_append, URB.encode_length]
    omega
  rw [if_neg hpl]
  have hdevr : readLE (u.encode ++ rest) 11 1 = u.deviceNumber := by
    rw [readLE_encode_deviceNumber, Nat.mod_eq_of_lt hdevb]
  rw [hdevr, if_pos hdev]
  rw [show 48 + u.iso.length + u.payload.length = u.encode.length from (URB.encode_length u).symm,
    List.drop_left]

theorem formatLoop_emit (cfg : Config) (u : URB) (rest : List ℕ) (ts : Option ℚ)
    (hwf : u.wfRec) (hbus : u.busId = cfg.busNumber) (hdl0 : u.payload.length ≠ 0)
    (hdev : u.deviceNumber = cfg.deviceNumber) :
    formatLoop cfg (u.encode ++ rest) ts =
      (if cfg.duration < u.time - latchTs ts u.time then
        ⟨[u.packet], rest, some (latchTs ts u.time), LoopExit.durBreak⟩
      else
        ⟨u.packet :: (formatLoop cfg rest (some (latchTs ts u.time))).truck,
         (formatLoop cfg rest (some (latchTs ts u.time))).rest,
         (formatLoop cfg rest (some (latchTs ts u.time))).timeStart,
         (formatLoop cfg rest (some (latchTs ts u.time))).exit⟩ : LoopResult) := by
  obtain ⟨hb, htt, hdevb, hsec, husec, hdl32, hiso⟩ := hwf
  rw [formatLoop_eq]
  unfold formatBody
  have h48 : ¬ (u.encode ++ rest).length < 48 := by
    rw [List.length_append, URB.encode_length]
    omega
  have hbus' : readLE (u.encode ++ rest) 12 2 = cfg.busNumber := by
    rw [readLE_encode_busId, Nat.mod_eq_of_lt hb, hbus]
  rw [if_neg h48, if_neg (not_not_intro hbus')]
  have hdlr : readLE (u.encode ++ rest) 36 4 = u.payload.length := by
    rw [readLE_encode_dataLength, Nat.mod_eq_of_lt hdl32]
  have htt' : readLE (u.encode ++ rest) 9 1 = u.transferType := by
    rw [readLE_encode_transferType, Nat.mod_eq_of_lt htt]
  rw [hdlr, if_neg hdl0, htt', ← hiso]
  have hpl : ¬ (u.encode ++ rest).length < 48 + u.iso.length + u.payload.length := by
    rw [List.length_append, URB.encode_length]
    omega
  rw [if_neg hpl]
  have hdevr : readLE (u.encode ++ rest) 11 1 = u.deviceNumber := by
    rw [readLE_encode_deviceNumber, Nat.mod_eq_of_lt hdevb]
  rw [hdevr, if_neg (not_not_intro hdev)]
  have hts : parsedTime (readLE (u.encode ++ rest) 16 8) (readLE (u.encode ++ rest) 24 4) =
      u.time := by
    rw [readLE_encode_tsSec, readLE_encode_tsUsec, Nat.mod_eq_of_lt hsec,
      Nat.mod_eq_of_lt husec]
    rfl
  rw [hts]
  rw [encode_slice u rest]
  rw [show 48 + u.iso.length + u.payload.length = u.encode.length from (URB.encode_length u).symm,
    List.drop_left]
  rfl

/-! ### The framer loop over a list of records -/

theorem joinEmissions_cons (cfg : Config) (u : URB) (rest : List URB) :
    joinEmissions cfg (u :: rest) = u.emission cfg ++ joinEmissions cfg rest := by
  simp [joinEmissions]

theorem joinEmissions_append (cfg : Config) (xs ys : List URB) :
    joinEmissions cfg (xs ++ ys) = joinEmissions cfg xs ++ joinEmissions cfg ys := by
  simp [joinEmissions]

theorem threadTs_cons (cfg : Config) (ts : Option ℚ) (u : URB) (rest : List URB) :
    threadTs cfg ts (u :: rest) = threadTs cfg (latchAcc cfg ts u) rest := rfl

theorem threadTs_append (cfg : Config) (ts : Option ℚ) (xs ys : List URB) :
    threadTs cfg ts (xs ++ ys) = threadTs cfg (threadTs cfg ts xs) ys := by
  simp [threadTs, List.foldl_append]

theorem noCut_cons (cfg : Config) (ts : Option ℚ) (u : URB) (rest : List URB)
    (h : noCut cfg ts (u :: rest) = true) :
    (u.accepted cfg → u.time - latchTs ts u.time ≤ cfg.duration) ∧
      noCut cfg (latchAcc cfg ts u) rest = true := by
  unfold noCut at h
  rw [Bool.and_eq_true, Bool.or_eq_true] at h
  constructor
  · intro hacc
    rcases h.1 with h1 | h1
    · rw [Bool.not_eq_true', decide_eq_false_iff_not] at h1
      exact absurd hacc h1
    · exact of_decide_eq_true h1
  · exact h.2

theorem noCut_append (cfg : Config) :
    ∀ (xs ys : List URB) (ts : Option ℚ),
      noCut cfg ts (xs ++ ys) = (noCut cfg ts xs && noCut cfg (threadTs cfg ts xs) ys) := by
  intro xs
  induction xs with
  | nil => intro ys ts; simp [noCut, threadTs]
  | cons u rest ih =>
      intro ys ts
      simp only [List.cons_append, noCut, List.append_eq, ih, threadTs_cons, Bool.and_assoc]

theorem formatLoop_chain (cfg : Config) :
    ∀ (recs : List URB) (tail : List ℕ) (ts : Option ℚ),
      (∀ u ∈ recs, u.wfRec ∧ u.busId = cfg.busNumber) →
      noCut cfg ts recs = true →
      formatLoop cfg ((recs.map URB.encode).flatten ++ tail) ts =
        ⟨joinEmissions cfg recs ++ (formatLoop cfg tail (threadTs cfg ts recs)).truck,
         (formatLoop cfg tail (threadTs cfg ts recs)).rest,
         (formatLoop cfg tail (threadTs cfg ts recs)).timeStart,
         (formatLoop cfg tail (threadTs cfg ts recs)).exit⟩ := by
  intro recs
  induction recs with
  | nil =>
      intro tail ts hok hcut
      simp [joinEmissions, threadTs]
  | cons u rest ih =>
      intro tail ts hok hcut
      obtain ⟨hwf, hbus⟩ := hok u (List.mem_cons_self u rest)
      have hok' : ∀ v ∈ rest, v.wfRec ∧ v.busId = cfg.busNumber :=
        fun v hv => hok v (List.mem_cons_of_mem u hv)
      obtain ⟨hdur, hcut'⟩ := noCut_cons cfg ts u rest hcut
      simp only [List.map_cons, List.flatten_cons, List.append_assoc]
      by_cases hacc : u.accepted cfg
      · have hdl0 : u.payload.length ≠ 0 := hacc.1
        have hdev : u.deviceNumber = cfg.deviceNumber := hacc.2
        rw [formatLoop_emit cfg u ((rest.map URB.encode).flatten ++ tail) ts hwf hbus hdl0 hdev]
        rw [if_neg (not_lt.mpr (hdur hacc))]
        have hlatch : latchAcc cfg ts u = some (latchTs ts u.time) := if_pos hacc
        rw [hlatch] at hcut'
        rw [ih tail (some (latchTs ts u.time)) hok' hcut']
        rw [threadTs_cons, hlatch, joinEmissions_cons]
        simp [URB.emission, if_pos hacc]
      · have hlatch : latchAcc cfg ts u = ts := if_neg hacc
        have hemit : u.emission cfg = [] := if_neg hacc
        rw [hlatch] at hcut'
        have hskip : formatLoop cfg (u.encode ++ ((rest.map URB.encode).flatten ++ tail)) ts =
            formatLoop cfg ((rest.map URB.encode).flatten ++ tail) ts := by
          by_cases hdl0 : u.payload.length = 0
          · exact formatLoop_skip_empty cfg u _ ts hwf hbus hdl0
          · have hdev : u.deviceNumber ≠ cfg.deviceNumber := by
              intro hd
              exact hacc ⟨hdl0, hd⟩
            exact formatLoop_skip_device cfg u _ ts hwf hbus hdl0 hdev
        rw [hskip, ih tail ts hok' hcut', threadTs_cons, hlatch, joinEmissions_cons, hemit]
        simp

/-! ### A partially delivered record makes the framer wait -/

theorem formatLoop_wait_truncated (cfg : Config) (u : URB) (k : ℕ) (ts : Option ℚ)
    (hwf : u.wfRec) (hbus : u.busId = cfg.busNumber)
    (hiso0 : ¬(u.transferType = 0 ∧ u.payload.length = 0))
    (hk : k < u.encode.length) :
    formatLoop cfg (u.encode.take k) ts = ⟨[], u.encode.take k, ts, LoopExit.wait⟩ := by
  obtain ⟨hb, htt, hdevb, hsec, husec, hdl32, hiso⟩ := hwf
  by_cases h48 : k < 48
  · apply formatLoop_wait_short
    rw [List.length_take]
    omega
  · have hdl0 : u.payload.length ≠ 0 := by
      intro h0
      have htt0 : u.transferType ≠ 0 := fun ht => hiso0 ⟨ht, h0⟩
      rw [if_neg htt0] at hiso
      rw [URB.encode_length, hiso, h0] at hk
      omega
    have hke : k ≤ u.encode.length := le_of_lt hk
    have hlen : (u.encode.take k).length = k := by
      rw [List.length_take]
      omega
    rw [formatLoop_eq]
    unfold formatBody
    rw [if_neg (by omega : ¬ (u.encode.take k).length < 48)]
    have hread : ∀ off n, off + n ≤ 48 →
        readLE (u.encode.take k) off n = readLE (u.encode ++ []) off n := by
      intro off n hoffn
      rw [List.append_nil]
      exact readLE_take u.encode off n k (by omega)
    have hbusr : readLE (u.encode.take k) 12 2 = cfg.busNumber := by
      rw [hread 12 2 (by norm_num), readLE_encode_busId, Nat.mod_eq_of_lt hb, hbus]
    rw [if_neg (not_not_intro hbusr)]
    have hdlr : readLE (u.encode.take k) 36 4 = u.payload.length := by
      rw [hread 36 4 (by norm_num), readLE_encode_dataLength, Nat.mod_eq_of_lt hdl32]
    have httr : readLE (u.encode.take k) 9 1 = u.transferType := by
      rw [hread 9 1 (by norm_num), readLE_encode_transferType, Nat.mod_eq_of_lt htt]
    rw [hdlr, if_neg hdl0, httr, ← hiso]
    rw [if_pos (by rw [hlen, URB.encode_length] at *; omega :
      (u.encode.take k).length < 48 + u.iso.length + u.payload.length)]

/-! ### Splitting a byte quantity into completed records and a remainder -/

theorem takeRecs_cons (u : URB) (rest : List URB) (ws : List ℕ) :
    takeRecs (u :: rest) ws =
      if (URB.encode u).length ≤ ws.length then
        u :: takeRecs rest (ws.drop (URB.encode u).length)
      else [] := rfl

theorem dropRecs_cons (u : URB) (rest : List URB) (ws : List ℕ) :
    dropRecs (u :: rest) ws =
      if (URB.encode u).length ≤ ws.length then
        dropRecs rest (ws.drop (URB.encode u).length)
      else u :: rest := rfl

theorem restBytes_cons (u : URB) (rest : List URB) (ws : List ℕ) :
    restBytes (u :: rest) ws =
      if (URB.encode u).length ≤ ws.length then
        restBytes rest (ws.drop (URB.encode u).length)
      else ws := rfl

theorem takeRecs_append_dropRecs :
    ∀ (recs : List URB) (ws : List ℕ),
      takeRecs recs ws ++ dropRecs recs ws = recs := by
  intro recs
  induction recs with
  | nil => intro ws; rfl
  | cons u rest ih =>
      intro ws
      unfold takeRecs dropRecs
      by_cases hle : (URB.encode u).length ≤ ws.length
      · rw [if_pos hle, if_pos hle, List.cons_append, ih]
      · rw [if_neg hle, if_neg hle, List.nil_append]

theorem takeRecs_dropRecs_restBytes :
    ∀ (recs : List URB) (ws : List ℕ),
      takeRecs (dropRecs recs ws) (restBytes recs ws) = [] := by
  intro recs
  induction recs with
  | nil => intro ws; rfl
  | cons u rest ih =>
      intro ws
      unfold dropRecs restBytes
      by_cases hle : (URB.encode u).length ≤ ws.length
      · rw [if_pos hle, if_pos hle]
        exact ih _
      · rw [if_neg hle, if_neg hle]
        unfold takeRecs
        rw [if_neg hle]

theorem mem_dropRecs (recs : List URB) (ws : List ℕ) (u : URB)
    (h : u ∈ dropRecs recs ws) : u ∈ recs := by
  rw [← takeRecs_append_dropRecs recs ws]
  exact List.mem_append_right _ h

/-- Processing any prefix of a well-formed record stream emits exactly
the accepted packets of the completed records, keeps the remainder, and
waits for more data. -/
theorem formatLoop_progress (cfg : Config) :
    ∀ (recs : List URB) (ws tail : List ℕ) (ts : Option ℚ),
      ws ++ tail = (recs.map URB.encode).flatten →
      streamOK cfg recs →
      noCut cfg ts recs = true →
      formatLoop cfg ws ts =
        ⟨joinEmissions cfg (takeRecs recs ws), restBytes recs ws,
         threadTs cfg ts (takeRecs recs ws), LoopExit.wait⟩ := by
  intro recs
  induction recs with
  | nil =>
      intro ws tail ts hsplit hok hcut
      simp only [List.map_nil, List.flatten_nil] at hsplit
      have hw : ws = [] := (List.append_eq_nil.mp hsplit).1
      rw [hw]
      simp only [takeRecs, restBytes, joinEmissions, List.map_nil, List.flatten_nil,
        threadTs, List.foldl_nil]
      exact formatLoop_wait_short cfg [] ts (by norm_num)
  | cons u rest ih =>
      intro ws tail ts hsplit hok hcut
      obtain ⟨hwf, hbus, hiso0⟩ := hok u (List.mem_cons_self u rest)
      have hok' : streamOK cfg rest := fun v hv => hok v (List.mem_cons_of_mem u hv)
      simp only [List.map_cons, List.flatten_cons] at hsplit
      by_cases hle : (URB.encode u).length ≤ ws.length
      · have htake : ws.take (URB.encode u).length = u.encode := by
          have h1 : (ws ++ tail).take (URB.encode u).length = ws.take (URB.encode u).length :=
            List.take_append_of_le_length hle
          rw [hsplit] at h1
          rw [← h1, List.take_left]
        have hws : ws = u.encode ++ ws.drop (URB.encode u).length := by
          conv_lhs => rw [← List.take_append_drop (URB.encode u).length ws]
          rw [htake]
        have hsplit' : ws.drop (URB.encode u).length ++ tail = (rest.map URB.encode).flatten := by
          have h2 : u.encode ++ (ws.drop (URB.encode u).length ++ tail) =
              u.encode ++ (rest.map URB.encode).flatten := by
            rw [← List.append_assoc, ← hws, hsplit]
          exact List.append_cancel_left h2
        obtain ⟨hdur, hcut'⟩ := noCut_cons cfg ts u rest hcut
        rw [takeRecs_cons, restBytes_cons, if_pos hle, if_pos hle]
        rw [joinEmissions_cons, threadTs_cons]
        conv_lhs => rw [hws]
        by_cases hacc : u.accepted cfg
        · rw [formatLoop_emit cfg u (ws.drop (URB.encode u).length) ts hwf hbus hacc.1 hacc.2]
          rw [if_neg (not_lt.mpr (hdur hacc))]
          have hlatch : latchAcc cfg ts u = some (latchTs ts u.time) := if_pos hacc
          rw [hlatch] at hcut'
          rw [ih (ws.drop (URB.encode u).length) tail (some (latchTs ts u.time)) hsplit' hok' hcut']
          rw [hlatch]
          simp [URB.emission, if_pos hacc]
        · have hlatch : latchAcc cfg ts u = ts := if_neg hacc
          have hemit : u.emission cfg = [] := if_neg hacc
          rw [hlatch] at hcut'
          have hskip : formatLoop cfg (u.encode ++ ws.drop (URB.encode u).length) ts =
              formatLoop cfg (ws.drop (URB.encode u).length) ts := by
            by_cases hdl0 : u.payload.length = 0
            · exact formatLoop_skip_empty cfg u _ ts hwf hbus hdl0
            · have hdev : u.deviceNumber ≠ cfg.deviceNumber := fun hd => hacc ⟨hdl0, hd⟩
              exact formatLoop_skip_device cfg u _ ts hwf hbus hdl0 hdev
          rw [hskip, ih (ws.drop (URB.encode u).length) tail ts hsplit' hok' hcut']
          rw [hlatch, hemit]
          simp
      · have hwlt : ws.length < (URB.encode u).length := by omega
        have hwtake : ws = u.encode.take ws.length := by
          have h1 : (ws ++ tail).take ws.length = ws.take ws.length :=
            List.take_append_of_le_length le_rfl
          rw [hsplit] at h1
          rw [List.take_append_of_le_length (le_of_lt hwlt)] at h1
          rw [h1, List.take_length]
        rw [takeRecs_cons, restBytes_cons, if_neg hle, if_neg hle]
        simp only [joinEmissions, List.map_nil, List.flatten_nil, threadTs, List.foldl_nil]
        conv_lhs => rw [hwtake]
        rw [formatLoop_wait_truncated cfg u ws.length ts ⟨hwf.1, hwf.2.1, hwf.2.2.1, hwf.2.2.2.1,
          hwf.2.2.2.2.1, hwf.2.2.2.2.2.1, hwf.2.2.2.2.2.2⟩ hbus hiso0 hwlt]
        rw [← hwtake]

/-! ### The outer loop of the framer over delivered chunks -/

theorem restBytes_decomp :
    ∀ (recs : List URB) (ws tail : List ℕ),
      ws ++ tail = (recs.map URB.encode).flatten →
      restBytes recs ws ++ tail = ((dropRecs recs ws).map URB.encode).flatten := by
  intro recs
  induction recs with
  | nil =>
      intro ws tail hsplit
      simp only [List.map_nil, List.flatten_nil] at hsplit
      obtain ⟨hw, ht⟩ := List.append_eq_nil.mp hsplit
      rw [hw, ht]
      rfl
  | cons u rest ih =>
      intro ws tail hsplit
      simp only [List.map_cons, List.flatten_cons] at hsplit
      rw [restBytes_cons, dropRecs_cons]
      by_cases hle : (URB.encode u).length ≤ ws.length
      · rw [if_pos hle, if_pos hle]
        apply ih
        have htake : ws.take (URB.encode u).length = u.encode := by
          have h1 : (ws ++ tail).take (URB.encode u).length = ws.take (URB.encode u).length :=
            List.take_append_of_le_length hle
          rw [hsplit] at h1
          rw [← h1, List.take_left]
        have hws : ws = u.encode ++ ws.drop (URB.encode u).length := by
          conv_lhs => rw [← List.take_append_drop (URB.encode u).length ws]
          rw [htake]
        have h2 : u.encode ++ (ws.drop (URB.encode u).length ++ tail) =
            u.encode ++ (rest.map URB.encode).flatten := by
          rw [← List.append_assoc, ← hws, hsplit]
        exact List.append_cancel_left h2
      · rw [if_neg hle, if_neg hle]
        simp only [List.map_cons, List.flatten_cons]
        exact hsplit

theorem runFramer_foldl (cfg : Config) :
    ∀ (cs : List (List ℕ)) (recs : List URB) (pre : List ℕ) (ts : Option ℚ)
      (E : List PacketData),
      takeRecs recs pre = [] →
      pre ++ cs.flatten = (recs.map URB.encode).flatten →
      streamOK cfg recs →
      noCut cfg ts recs = true →
      List.foldl (framerStep cfg) ⟨pre, ts, E, false⟩ cs =
        ⟨[], threadTs cfg ts recs, E ++ joinEmissions cfg recs, false⟩ := by
  intro cs
  induction cs with
  | nil =>
      intro recs pre ts E hthin hjoin hok hcut
      simp only [List.flatten_nil, List.append_nil] at hjoin
      have hrecs : recs = [] := by
        cases recs with
        | nil => rfl
        | cons u rest =>
            exfalso
            have hlen : (URB.encode u).length ≤ pre.length := by
              rw [hjoin]
              simp only [List.map_cons, List.flatten_cons, List.length_append]
              omega
            rw [takeRecs_cons, if_pos hlen] at hthin
            exact List.cons_ne_nil _ _ hthin
      subst hrecs
      simp only [List.map_nil, List.flatten_nil] at hjoin
      rw [hjoin]
      simp [threadTs, joinEmissions]
  | cons c cs' ih =>
      intro recs pre ts E hthin hjoin hok hcut
      simp only [List.foldl_cons]
      by_cases hc : c.isEmpty
      · have hstep : framerStep cfg ⟨pre, ts, E, false⟩ c = ⟨pre, ts, E, false⟩ := by
          unfold framerStep
          rw [if_neg (by simp), if_pos hc]
        rw [hstep]
        apply ih recs pre ts E hthin _ hok hcut
        rw [List.isEmpty_iff] at hc
        rw [← hjoin, hc]
        simp
      · have hsplit : (pre ++ c) ++ cs'.flatten = (recs.map URB.encode).flatten := by
          rw [List.append_assoc, ← List.flatten_cons]
          exact hjoin
        have hstep : framerStep cfg ⟨pre, ts, E, false⟩ c =
            ⟨restBytes recs (pre ++ c), threadTs cfg ts (takeRecs recs (pre ++ c)),
             E ++ joinEmissions cfg (takeRecs recs (pre ++ c)), false⟩ := by
          unfold framerStep
          rw [if_neg (by simp), if_neg hc]
          rw [formatLoop_progress cfg recs (pre ++ c) cs'.flatten ts hsplit hok hcut]
          simp
        rw [hstep]
        have hcut2 : noCut cfg (threadTs cfg ts (takeRecs recs (pre ++ c)))
            (dropRecs recs (pre ++ c)) = true := by
          have h1 := hcut
          rw [← takeRecs_append_dropRecs recs (pre ++ c), noCut_append, Bool.and_eq_true] at h1
          exact h1.2
        rw [ih (dropRecs recs (pre ++ c)) (restBytes recs (pre ++ c))
          (threadTs cfg ts (takeRecs recs (pre ++ c)))
          (E ++ joinEmissions cfg (takeRecs recs (pre ++ c)))
          (takeRecs_dropRecs_restBytes recs (pre ++ c))
          (restBytes_decomp recs (pre ++ c) cs'.flatten hsplit)
          (fun v hv => hok v (mem_dropRecs _ _ _ hv)) hcut2]
        rw [show threadTs cfg ts recs =
            threadTs cfg (threadTs cfg ts (takeRecs recs (pre ++ c))) (dropRecs recs (pre ++ c)) from by
          conv_lhs => rw [← takeRecs_append_dropRecs recs (pre ++ c)]
          rw [threadTs_append]]
        rw [show joinEmissions cfg recs =
            joinEmissions cfg (takeRecs recs (pre ++ c)) ++ joinEmissions cfg (dropRecs recs (pre ++ c)) from by
          conv_lhs => rw [← takeRecs_append_dropRecs recs (pre ++ c)]
          rw [joinEmissions_append]]
        rw [List.append_assoc]

/-- Delivering chunks whose concatenation is exactly a well-formed record
stream makes the framer consume everything, publish exactly the accepted
packets in order, and leave the workspace empty without aborting. -/
theorem runFramer_complete (cfg : Config) (recs : List URB) (cs : List (List ℕ))
    (hok : streamOK cfg recs) (hcut : noCut cfg none recs = true)
    (hjoin : cs.flatten = (recs.map URB.encode).flatten) :
    runFramer cfg cs = ⟨[], threadTs cfg none recs, joinEmissions cfg recs, false⟩ := by
  unfold runFramer
  have h := runFramer_foldl cfg cs recs [] none []
    (by
      cases recs with
      | nil => rfl
      | cons u rest =>
          rw [takeRecs_cons,
            if_neg (by simp only [URB.encode_length, List.length_nil]; omega)])
    (by rw [List.nil_append]; exact hjoin) hok hcut
  rw [h]
  simp

/-! ### Exactness of the parsed decimal timestamp -/

theorem digitsRevAux_eq (fuel : ℕ) :
    ∀ n, n < 10 ^ fuel → digitsRevAux fuel n = Nat.digits 10 n := by
  induction fuel with
  | zero =>
      intro n h
      have h1 : (10 : ℕ) ^ 0 = 1 := pow_zero 10
      have hn : n = 0 := by omega
      subst hn
      simp [digitsRevAux]
  | succ fuel ih =>
      intro n h
      cases n with
      | zero => simp [digitsRevAux]
      | succ n =>
          rw [show digitsRevAux (fuel + 1) (n + 1) =
            ((n + 1) % 10) :: digitsRevAux fuel ((n + 1) / 10) from rfl]
          rw [Nat.digits_def' (by norm_num : (1 : ℕ) < 10) (Nat.succ_pos n)]
          congr 1
          apply ih
          have h10 : (10 : ℕ) ^ (fuel + 1) = 10 ^ fuel * 10 := pow_succ 10 fuel
          omega

theorem digitsVal_concat (xs : List ℕ) (d : ℕ) :
    digitsVal (xs ++ [d]) = digitsVal xs * 10 + d := by
  unfold digitsVal
  rw [List.foldl_append]
  rfl

theorem digitsVal_reverse (l : List ℕ) :
    digitsVal l.reverse = Nat.ofDigits 10 l := by
  induction l with
  | nil => rfl
  | cons d l ih =>
      rw [List.reverse_cons, digitsVal_concat, ih, Nat.ofDigits_cons]
      omega

theorem digitsVal_replicate_zero (k : ℕ) (l : List ℕ) :
    digitsVal (List.replicate k 0 ++ l) = digitsVal l := by
  induction k with
  | zero => rfl
  | succ k ih =>
      rw [List.replicate_succ, List.cons_append]
      show digitsVal (List.replicate k 0 ++ l) = digitsVal l
      exact ih

theorem digitsVal_strDigits (n : ℕ) (h : n < 10 ^ 32) :
    digitsVal (strDigits n) = n := by
  unfold strDigits
  by_cases h0 : n = 0
  · rw [if_pos h0, h0]
    rfl
  · rw [if_neg h0, digitsRevAux_eq 32 n h, digitsVal_reverse, Nat.ofDigits_digits]

theorem strDigits_length_le (n : ℕ) (h : n < 10 ^ 6) : (strDigits n).length ≤ 6 := by
  unfold strDigits
  by_cases h0 : n = 0
  · rw [if_pos h0]
    norm_num
  · rw [if_neg h0, List.length_reverse,
      digitsRevAux_eq 32 n (lt_trans h (by norm_num))]
    by_contra hgt
    push_neg at hgt
    have h1 : (10 : ℕ) ^ (Nat.digits 10 n).length ≤ 10 * n :=
      Nat.base_pow_length_digits_le 10 n (by norm_num) h0
    have h2 : (10 : ℕ) ^ 7 ≤ 10 ^ (Nat.digits 10 n).length :=
      Nat.pow_le_pow_right (by norm_num) hgt
    have h3 : (10 : ℕ) ^ 7 = 10000000 := by norm_num
    have h4 : (10 : ℕ) ^ 6 = 1000000 := by norm_num
    omega

theorem zfill6_length (n : ℕ) (h : n < 10 ^ 6) : (zfill6 n).length = 6 := by
  unfold zfill6
  rw [List.length_append, List.length_replicate]
  have := strDigits_length_le n h
  omega

/-- For `ts_usec < 10^6` the decimal string `f"{sec}.{str(usec).zfill(6)}"`
has exact rational value `sec + usec / 10^6`. -/
theorem parsedTime_eq (sec usec : ℕ) (h : usec < 10 ^ 6) :
    parsedTime sec usec = (sec : ℚ) + (usec : ℚ) / 10 ^ 6 := by
  unfold parsedTime
  rw [zfill6_length usec h]
  unfold zfill6
  rw [digitsVal_replicate_zero, digitsVal_strDigits usec (lt_trans h (by norm_num))]

/-! ### Monotonicity of round-half-to-even -/

theorem rhe_bounds (q : ℚ) : ⌊q⌋ ≤ rhe q ∧ rhe q ≤ ⌊q⌋ + 1 := by
  unfold rhe
  split_ifs <;> omega

theorem rhe_mono {x y : ℚ} (h : x ≤ y) : rhe x ≤ rhe y := by
  rcases lt_or_eq_of_le (Int.floor_le_floor h) with hf | hf
  · have h1 := (rhe_bounds x).2
    have h2 := (rhe_bounds y).1
    omega
  · unfold rhe
    rw [← hf]
    have hxy : x - (⌊x⌋ : ℚ) ≤ y - (⌊x⌋ : ℚ) := by linarith
    split_ifs <;> first | omega | linarith

theorem roundPy_mono {x y : ℚ} (h : x ≤ y) : roundPy x ≤ roundPy y := by
  unfold roundPy
  have h1 : rhe (x * 10 ^ 6) ≤ rhe (y * 10 ^ 6) :=
    rhe_mono (by nlinarith)
  have h2 : ((rhe (x * 10 ^ 6) : ℚ)) ≤ ((rhe (y * 10 ^ 6) : ℚ)) := by exact_mod_cast h1
  exact (div_le_div_right (by norm_num : (0 : ℚ) < 10 ^ 6)).mpr h2

theorem roundPy_zero : roundPy 0 = 0 := by
  unfold roundPy rhe
  norm_num

/-! ### Abort is latching and preserves already-published packets -/

theorem framer_absorb (cfg : Config) :
    ∀ (cs : List (List ℕ)) (st : FramerState), st.aborted = true →
      List.foldl (framerStep cfg) st cs = st := by
  intro cs
  induction cs with
  | nil => intro st h; rfl
  | cons c cs' ih =>
      intro st h
      rw [List.foldl_cons, show framerStep cfg st c = st from by unfold framerStep; rw [if_pos h]]
      exact ih st h

/-- Processing a well-formed stream followed by a misaligned suffix (at
least one header long, wrong bus id at the record boundary) publishes
exactly the packets of the stream's accepted records, keeps the suffix,
and sets abort. -/
theorem framerStep_abort_tail (cfg : Config) (recs : List URB) (bad : List ℕ)
    (ts : Option ℚ) (E : List PacketData)
    (hok : ∀ u ∈ recs, u.wfRec ∧ u.busId = cfg.busNumber)
    (hcut : noCut cfg ts recs = true)
    (h48 : ¬ bad.length < 48) (hbus : readLE bad 12 2 ≠ cfg.busNumber)
    (hchunk : ¬ ((recs.map URB.encode).flatten ++ bad).isEmpty = true) :
    framerStep cfg ⟨[], ts, E, false⟩ ((recs.map URB.encode).flatten ++ bad) =
      ⟨bad, threadTs cfg ts recs, E ++ joinEmissions cfg recs, true⟩ := by
  unfold framerStep
  rw [if_neg (by simp), if_neg hchunk]
  rw [List.nil_append]
  rw [formatLoop_chain cfg recs bad ts hok hcut]
  rw [formatLoop_abort cfg bad (threadTs cfg ts recs) h48 hbus]
  simp

/-! ### Output rows of the recorder -/

theorem processBatch_map_rowTime (port : ℕ) :
    ∀ (pkts : List PacketData) (e : ℚ), e ≠ 0 →
      ((processBatch port (some e) pkts).1).map OutLine.rowTime =
        pkts.map (fun p => roundPy (p.timestamp - e)) := by
  intro pkts
  induction pkts with
  | nil => intro e he; rfl
  | cons p rest ih =>
      intro e he
      unfold processBatch
      have hl : latchTs (some e) p.timestamp = e := by
        simp [latchTs, he]
      rw [hl]
      simp only [List.map_cons, OutLine.rowTime]
      rw [ih e he]

/-- With a nonzero first timestamp, the whole TIMESTAMP column is the
round of the offsets from the first packet's timestamp. -/
theorem processBatch_rowTimes (port : ℕ) (p : PacketData) (rest : List PacketData)
    (h : p.timestamp ≠ 0) :
    ((processBatch port none (p :: rest)).1).map OutLine.rowTime =
      (p :: rest).map (fun q => roundPy (q.timestamp - p.timestamp)) := by
  unfold processBatch
  have hl : latchTs none p.timestamp = p.timestamp := rfl
  rw [hl]
  simp only [List.map_cons, OutLine.rowTime]
  rw [processBatch_map_rowTime port rest p.timestamp h]

theorem processBatch_length (port : ℕ) :
    ∀ (pkts : List PacketData) (ep : Option ℚ),
      (processBatch port ep pkts).1.length = pkts.length := by
  intro pkts
  induction pkts with
  | nil => intro ep; rfl
  | cons p rest ih =>
      intro ep
      unfold processBatch
      simp only [List.length_cons, ih]

theorem processBatch_rows (port : ℕ) :
    ∀ (pkts : List PacketData) (ep : Option ℚ),
      ∀ l ∈ (processBatch port ep pkts).1, ∃ t ps, l = OutLine.row t ps := by
  intro pkts
  induction pkts with
  | nil => intro ep l hl; cases hl
  | cons p rest ih =>
      intro ep l hl
      unfold processBatch at hl
      rcases List.mem_cons.mp hl with h | h
      · exact ⟨_, _, h⟩
      · exact ih _ l h

theorem recordLoop_rows (port : ℕ) :
    ∀ (steps : List RecordStep) (ep : Option ℚ),
      ∀ l ∈ recordLoop port ep steps, ∃ t ps, l = OutLine.row t ps := by
  intro steps
  induction steps with
  | nil => intro ep l hl; cases hl
  | cons step rest ih =>
      intro ep l hl
      unfold recordLoop at hl
      by_cases ha : step.abortNow = true
      · rw [if_pos ha] at hl
        cases hl
      · rw [if_neg ha] at hl
        by_cases hb : step.batch.isEmpty = true
        · rw [if_pos hb] at hl
          by_cases hp : step.endPacket = true
          · rw [if_pos hp] at hl
            cases hl
          · rw [if_neg hp] at hl
            exact ih _ l hl
        · rw [if_neg hb] at hl
          rcases List.mem_append.mp hl with h | h
          · exact processBatch_rows port _ _ l h
          · exact ih _ l h

/-! ### Concrete capture fixtures -/

theorem latchTs_none (t : ℚ) : latchTs none t = t := rfl

theorem timeT100 : (urbT 100 0).time = 100 := by
  simp only [URB.time, urbT, urbA]
  rw [parsedTime_eq 100 0 (by norm_num)]
  norm_num

theorem timeT102 : (urbT 102 0).time = 102 := by
  simp only [URB.time, urbT, urbA]
  rw [parsedTime_eq 102 0 (by norm_num)]
  norm_num

theorem timeT103 : (urbT 103 0).time = 103 := by
  simp only [URB.time, urbT, urbA]
  rw [parsedTime_eq 103 0 (by norm_num)]
  norm_num

theorem timeT101p : (urbT 101 500001).time = 101 + 500001 / 1000000 := by
  simp only [URB.time, urbT, urbA]
  rw [parsedTime_eq 101 500001 (by norm_num)]
  norm_num

/-- One nonempty chunk processed from a non-aborted state, given the inner
loop's result. -/
theorem framerStep_run (cfg : Config) (st : FramerState) (c : List ℕ)
    (h1 : st.aborted = false) (h2 : c.isEmpty = false) (r : LoopResult)
    (hr : formatLoop cfg (st.ws ++ c) st.ts = r) :
    framerStep cfg st c =
      ⟨r.rest, r.timeStart, st.qOut ++ r.truck, decide (r.exit = LoopExit.abort)⟩ := by
  unfold framerStep
  rw [if_neg (by rw [h1]; simp), if_neg (by rw [h2]; simp), hr]

/-- Whole-stream delivery of the empty-ISO-then-accepted stream: the ISO
record is skipped correctly and the accepted record is emitted. -/
theorem runIsoWhole : runFramer cfgS [sIso] =
    ⟨[], some urbA.time, [urbA.packet], false⟩ := by
  unfold runFramer
  rw [List.foldl_cons, List.foldl_nil]
  have hr : formatLoop cfgS ((⟨[], none, [], false⟩ : FramerState).ws ++ sIso) none =
      ⟨[urbA.packet], [], some urbA.time, LoopExit.wait⟩ := by
    rw [show (⟨[], none, [], false⟩ : FramerState).ws ++ sIso =
        urbIso0.encode ++ (urbA.encode ++ []) from by simp [sIso]]
    rw [formatLoop_skip_empty cfgS urbIso0 _ none (by decide) (by decide) (by decide)]
    rw [formatLoop_emit cfgS urbA [] none (by decide) (by decide) (by decide) (by decide)]
    rw [latchTs_none, if_neg (by rw [sub_self]; norm_num [cfgS] :
      ¬ cfgS.duration < urbA.time - urbA.time)]
    rw [formatLoop_wait_short cfgS [] (some urbA.time) (by norm_num)]
  rw [framerStep_run cfgS ⟨[], none, [], false⟩ sIso rfl (by decide) _ hr]
  rfl

/-- Chunked delivery of the same stream split inside the ISO block: the
skip overshoots the workspace, the ISO descriptor's tail bytes are
reparsed as a header, and the framer aborts with nothing emitted. -/
theorem runIsoChunked : (runFramer cfgS [sIso.take 50, sIso.drop 50]).qOut = [] := by decide

/-- Whole-stream delivery of scenario 5: both records are emitted; the
second (past the deadline) is appended before the loop breaks. -/
theorem runScenario5 : runFramer cfgD [sC3] =
    ⟨[], some (urbT 100 0).time, [(urbT 100 0).packet, (urbT 101 500001).packet], false⟩ := by
  unfold runFramer
  rw [List.foldl_cons, List.foldl_nil]
  have hr : formatLoop cfgD ((⟨[], none, [], false⟩ : FramerState).ws ++ sC3) none =
      ⟨[(urbT 100 0).packet, (urbT 101 500001).packet], [], some (urbT 100 0).time,
        LoopExit.durBreak⟩ := by
    rw [show (⟨[], none, [], false⟩ : FramerState).ws ++ sC3 =
        (urbT 100 0).encode ++ ((urbT 101 500001).encode ++ []) from by simp [sC3]]
    rw [formatLoop_emit cfgD (urbT 100 0) _ none (by decide) (by decide) (by decide) (by decide)]
    rw [latchTs_none, if_neg (by rw [sub_self]; norm_num [cfgD] :
      ¬ cfgD.duration < (urbT 100 0).time - (urbT 100 0).time)]
    rw [formatLoop_emit cfgD (urbT 101 500001) [] (some (urbT 100 0).time)
      (by decide) (by decide) (by decide) (by decide)]
    rw [show latchTs (some (urbT 100 0).time) (urbT 101 500001).time = (urbT 100 0).time from by
      simp [latchTs, timeT100]]
    rw [if_pos (by rw [timeT100, timeT101p]; norm_num [cfgD] :
      cfgD.duration < (urbT 101 500001).time - (urbT 100 0).time)]
  rw [framerStep_run cfgD ⟨[], none, [], false⟩ sC3 rfl (by decide) _ hr]
  rfl

/-- Whole-stream delivery of the three-record deadline stream: the break
leaves the third record unparsed in the workspace forever. -/
theorem runDeadWhole : runFramer cfgD [sDead] =
    ⟨(urbT 103 0).encode ++ [], some (urbT 100 0).time,
     [(urbT 100 0).packet, (urbT 102 0).packet], false⟩ := by
  unfold runFramer
  rw [List.foldl_cons, List.foldl_nil]
  have hr : formatLoop cfgD ((⟨[], none, [], false⟩ : FramerState).ws ++ sDead) none =
      ⟨[(urbT 100 0).packet, (urbT 102 0).packet], (urbT 103 0).encode ++ [],
        some (urbT 100 0).time, LoopExit.durBreak⟩ := by
    rw [show (⟨[], none, [], false⟩ : FramerState).ws ++ sDead =
        (urbT 100 0).encode ++ ((urbT 102 0).encode ++ ((urbT 103 0).encode ++ [])) from by
      simp [sDead, sD1]]
    rw [formatLoop_emit cfgD (urbT 100 0) _ none (by decide) (by decide) (by decide) (by decide)]
    rw [latchTs_none, if_neg (by rw [sub_self]; norm_num [cfgD] :
      ¬ cfgD.duration < (urbT 100 0).time - (urbT 100 0).time)]
    rw [formatLoop_emit cfgD (urbT 102 0) _ (some (urbT 100 0).time)
      (by decide) (by decide) (by decide) (by decide)]
    rw [show latchTs (some (urbT 100 0).time) (urbT 102 0).time = (urbT 100 0).time from by
      simp [latchTs, timeT100]]
    rw [if_pos (by rw [timeT100, timeT102]; norm_num [cfgD] :
      cfgD.duration < (urbT 102 0).time - (urbT 100 0).time)]
  rw [framerStep_run cfgD ⟨[], none, [], false⟩ sDead rfl (by decide) _ hr]
  rfl

/-- Chunked delivery of the same deadline stream with the third record in
its own chunk: the third record IS emitted. -/
theorem runDeadChunked : runFramer cfgD [sD1, (urbT 103 0).encode] =
    ⟨[], some (urbT 100 0).time,
     [(urbT 100 0).packet, (urbT 102 0).packet, (urbT 103 0).packet], false⟩ := by
  unfold runFramer
  rw [List.foldl_cons, List.foldl_cons, List.foldl_nil]
  have hr1 : formatLoop cfgD ((⟨[], none, [], false⟩ : FramerState).ws ++ sD1) none =
      ⟨[(urbT 100 0).packet, (urbT 102 0).packet], [], some (urbT 100 0).time,
        LoopExit.durBreak⟩ := by
    rw [show (⟨[], none, [], false⟩ : FramerState).ws ++ sD1 =
        (urbT 100 0).encode ++ ((urbT 102 0).encode ++ []) from by simp [sD1]]
    rw [formatLoop_emit cfgD (urbT 100 0) _ none (by decide) (by decide) (by decide) (by decide)]
    rw [latchTs_none, if_neg (by rw [sub_self]; norm_num [cfgD] :
      ¬ cfgD.duration < (urbT 100 0).time - (urbT 100 0).time)]
    rw [formatLoop_emit cfgD (urbT 102 0) [] (some (urbT 100 0).time)
      (by decide) (by decide) (by decide) (by decide)]
    rw [show latchTs (some (urbT 100 0).time) (urbT 102 0).time = (urbT 100 0).time from by
      simp [latchTs, timeT100]]
    rw [if_pos (by rw [timeT100, timeT102]; norm_num [cfgD] :
      cfgD.duration < (urbT 102 0).time - (urbT 100 0).time)]
  rw [framerStep_run cfgD ⟨[], none, [], false⟩ sD1 rfl (by decide) _ hr1]
  have hr2 : formatLoop cfgD (([] : List ℕ) ++ (urbT 103 0).encode) (some (urbT 100 0).time) =
      ⟨[(urbT 103 0).packet], [], some (urbT 100 0).time, LoopExit.durBreak⟩ := by
    rw [show (([] : List ℕ) ++ (urbT 103 0).encode) = (urbT 103 0).encode ++ [] from by simp]
    rw [formatLoop_emit cfgD (urbT 103 0) [] (some (urbT 100 0).time)
      (by decide) (by decide) (by decide) (by decide)]
    rw [show latchTs (some (urbT 100 0).time) (urbT 103 0).time = (urbT 100 0).time from by
      simp [latchTs, timeT100]]
    rw [if_pos (by rw [timeT100, timeT103]; norm_num [cfgD] :
      cfgD.duration < (urbT 103 0).time - (urbT 100 0).time)]
  rw [framerStep_run cfgD _ ((urbT 103 0).encode) rfl (by decide) _ hr2]
  rfl

/-- The accepted scenario record never triggers the duration cut alone. -/
theorem noCutA : noCut cfgS none [urbA] = true := by
  unfold noCut
  rw [Bool.and_eq_true, Bool.or_eq_true]
  refine ⟨Or.inr (decide_eq_true ?_), rfl⟩
  rw [latchTs_none, sub_self]
  norm_num [cfgS]

/-! ### The claims -/

/-- C1: the claim states that the stages use the supplied `device_number`
and `bus_number` as their immutable configuration.  The code violates it:
`App.__init__` overwrites both with the literals 7 and 3 (the `# Hard
code` lines), so a call with device 8 and bus 5 stores device 7, bus 3
and byte-source path `/dev/usbmon3`, and the framer built from that
configuration aborts on a record carrying the supplied bus id 5. -/
theorem claim1_config_hardcoded :
    (appInit 8 5 1 "record.csv" 10).deviceNumber = 7 ∧
    (appInit 8 5 1 "record.csv" 10).busNumber = 3 ∧
    (appInit 8 5 1 "record.csv" 10).usbmonFile = "/dev/usbmon3" ∧
    (appInit 8 5 1 "record.csv" 10).deviceNumber ≠ 8 ∧
    (appInit 8 5 1 "record.csv" 10).busNumber ≠ 5 ∧
    (runFramer ⟨(appInit 8 5 1 "record.csv" 10).busNumber,
        (appInit 8 5 1 "record.csv" 10).deviceNumber, 10, 1⟩
      [({ urbA with busId := 5 } : URB).encode]).aborted = true := by
  refine ⟨rfl, rfl, rfl, by decide, by decide, by decide⟩

/-- C2 (counterexample): the chunk-boundary-insensitivity claim fails on
two well-formed streams.  First, splitting inside the ISO descriptor
block of an isochronous record with `data_length = 0` makes the skip
overshoot the workspace, lose the block's tail bytes and abort on resync,
so the chunked run emits nothing while the whole-stream run emits one
packet.  Second, after a duration cut the whole-stream run never parses
the remaining workspace, while a later chunk makes the framer resume and
emit one more packet. -/
theorem claim2_counterexample :
    (∀ u ∈ [urbIso0, urbA], u.wfRec ∧ u.busId = cfgS.busNumber) ∧
    sIso.take 50 ++ sIso.drop 50 = sIso ∧
    (runFramer cfgS [sIso.take 50, sIso.drop 50]).qOut ≠ (runFramer cfgS [sIso]).qOut ∧
    (∀ u ∈ [urbT 100 0, urbT 102 0, urbT 103 0],
      u.wfRec ∧ u.busId = cfgD.busNumber ∧ ¬(u.transferType = 0 ∧ u.payload.length = 0)) ∧
    sD1 ++ (urbT 103 0).encode = sDead ∧
    (runFramer cfgD [sD1, (urbT 103 0).encode]).qOut ≠ (runFramer cfgD [sDead]).qOut := by
  refine ⟨by decide, by decide, ?_, by decide, rfl, ?_⟩
  · rw [runIsoChunked, runIsoWhole]
    simp
  · rw [runDeadChunked, runDeadWhole]
    simp

/-- C2 (amended): for a stream of well-formed records on the configured
bus, none of which is an isochronous record with `data_length = 0`, and
in which no accepted record exceeds the duration window, the published
packet sequence is the same for every partition into chunks as for
whole-stream delivery, namely the accepted records' packets in order. -/
theorem claim2_chunk_insensitivity (cfg : Config) (recs : List URB)
    (cs : List (List ℕ))
    (hok : streamOK cfg recs) (hcut : noCut cfg none recs = true)
    (hjoin : cs.flatten = (recs.map URB.encode).flatten) :
    (runFramer cfg cs).qOut = (runFramer cfg [(recs.map URB.encode).flatten]).qOut ∧
    (runFramer cfg cs).qOut = joinEmissions cfg recs := by
  rw [runFramer_complete cfg recs cs hok hcut hjoin,
    runFramer_complete cfg recs [(recs.map URB.encode).flatten] hok hcut (by simp)]
  exact ⟨rfl, rfl⟩

theorem claim2_chunk_insensitivity_witness :
    (streamOK cfgS [urbA] ∧ noCut cfgS none [urbA] = true ∧
      [urbA.encode.take 50, urbA.encode.drop 50].flatten = ([urbA].map URB.encode).flatten) ∧
    ((runFramer cfgS [urbA.encode.take 50, urbA.encode.drop 50]).qOut =
        (runFramer cfgS [([urbA].map URB.encode).flatten]).qOut ∧
      (runFramer cfgS [urbA.encode.take 50, urbA.encode.drop 50]).qOut =
        joinEmissions cfgS [urbA]) :=
  ⟨⟨by decide, noCutA, by decide⟩,
   claim2_chunk_insensitivity cfgS [urbA] [urbA.encode.take 50, urbA.encode.drop 50]
     (by decide) noCutA (by decide)⟩

/-- C3 (counterexample): in scenario 5 (two accepted records at
100.000000 s and 101.500001 s, duration 1 s) the second record exceeds
the deadline, yet `format_packet` appends it to `input_truck` before
checking the cut, so it IS published and the recorder writes a header
plus two data rows, not one. -/
theorem claim3_counterexample :
    (runFramer cfgD [sC3]).qOut = [(urbT 100 0).packet, (urbT 101 500001).packet] ∧
    cfgD.duration < (urbT 101 500001).time - (urbT 100 0).time ∧
    (recordData cfgD.playerPort
      [⟨false, (runFramer cfgD [sC3]).qOut, false⟩]).length = 3 := by
  refine ⟨by rw [runScenario5], ?_, ?_⟩
  · rw [timeT100, timeT101p]
    norm_num [cfgD]
  · rw [runScenario5]
    simp [recordData, recordLoop, processBatch_length]

/-- C3 (amended): an accepted record whose timestamp exceeds
`time_start + duration` IS still emitted; the framer then stops framing
further records in that iteration (`durBreak`), leaving the rest of the
workspace unparsed. -/
theorem claim3_deadline_emits_then_stops (cfg : Config) (u : URB) (rest : List ℕ)
    (ts : Option ℚ) (hwf : u.wfRec) (hbus : u.busId = cfg.busNumber)
    (hdl0 : u.payload.length ≠ 0) (hdev : u.deviceNumber = cfg.deviceNumber)
    (hcut : cfg.duration < u.time - latchTs ts u.time) :
    formatLoop cfg (u.encode ++ rest) ts =
      ⟨[u.packet], rest, some (latchTs ts u.time), LoopExit.durBreak⟩ := by
  rw [formatLoop_emit cfg u rest ts hwf hbus hdl0 hdev, if_pos hcut]

theorem claim3_deadline_witness :
    ((urbT 101 500001).wfRec ∧ (urbT 101 500001).busId = cfgD.busNumber ∧
      (urbT 101 500001).payload.length ≠ 0 ∧
      (urbT 101 500001).deviceNumber = cfgD.deviceNumber ∧
      cfgD.duration < (urbT 101 500001).time - latchTs (some 100) (urbT 101 500001).time) ∧
    formatLoop cfgD ((urbT 101 500001).encode ++ [0, 1, 2]) (some 100) =
      ⟨[(urbT 101 500001).packet], [0, 1, 2],
        some (latchTs (some 100) (urbT 101 500001).time), LoopExit.durBreak⟩ := by
  have hcut : cfgD.duration < (urbT 101 500001).time - latchTs (some 100) (urbT 101 500001).time := by
    rw [show latchTs (some 100) (urbT 101 500001).time = 100 from by norm_num [latchTs]]
    rw [timeT101p]
    norm_num [cfgD]
  exact ⟨⟨by decide, by decide, by decide, by decide, hcut⟩,
    claim3_deadline_emits_then_stops cfgD (urbT 101 500001) [0, 1, 2] (some 100)
      (by decide) (by decide) (by decide) (by decide) hcut⟩

/-- C4 (counterexample): with first timestamp 0.0 the `if not epoch`
truthiness test never latches the epoch, so for input timestamps 0 and 5
the second row's TIMESTAMP is 0, not `round(5 − 0, 6) = 5` as the claim
requires. -/
theorem rhe_intCast (n : ℤ) : rhe (n : ℚ) = n := by
  unfold rhe
  rw [Int.floor_intCast, sub_self]
  norm_num

theorem roundPy_intCast (n : ℤ) : roundPy (n : ℚ) = n := by
  unfold roundPy
  rw [show ((n : ℚ) * 10 ^ 6) = ((n * 10 ^ 6 : ℤ) : ℚ) from by push_cast; ring]
  rw [rhe_intCast]
  push_cast
  field_simp
  norm_num

theorem claim4_counterexample :
    ((processBatch 1 none [⟨0, qPayload⟩, ⟨5, qPayload⟩]).1).map OutLine.rowTime = [0, 0] ∧
    [roundPy ((0 : ℚ) - 0), roundPy ((5 : ℚ) - 0)] = [0, 5] ∧
    (0 : ℚ) ≠ 5 := by
  refine ⟨?_, ?_, by norm_num⟩
  · simp only [processBatch, latchTs, List.map_cons, List.map_nil, OutLine.rowTime]
    norm_num [roundPy_zero]
  · rw [sub_self, roundPy_zero, sub_zero,
      show (5 : ℚ) = ((5 : ℤ) : ℚ) from by norm_num, roundPy_intCast]

/-- C4 (amended): provided the first payload's timestamp is nonzero (a
0.0 first timestamp never latches the epoch because of the `if not epoch`
truthiness test), the TIMESTAMP column equals `round(ts_k − ts_1, 6)` for
every row, the first row is 0, and the column is non-decreasing whenever
the input timestamps are non-decreasing. -/
theorem claim4_first_zero_then_offsets (port : ℕ) (p : PacketData)
    (rest : List PacketData) (h : p.timestamp ≠ 0) :
    ((processBatch port none (p :: rest)).1).map OutLine.rowTime =
      (p :: rest).map (fun q => roundPy (q.timestamp - p.timestamp)) ∧
    List.head? (((processBatch port none (p :: rest)).1).map OutLine.rowTime) = some 0 ∧
    (List.Chain' (· ≤ ·) ((p :: rest).map PacketData.timestamp) →
      List.Chain' (· ≤ ·) (((processBatch port none (p :: rest)).1).map OutLine.rowTime)) := by
  have hmap := processBatch_rowTimes port p rest h
  refine ⟨hmap, ?_, ?_⟩
  · rw [hmap]
    simp [sub_self, roundPy_zero]
  · intro hch
    rw [hmap]
    rw [List.chain'_map] at hch ⊢
    exact hch.imp (fun a b hab => roundPy_mono (by linarith))

theorem claim4_first_zero_then_offsets_witness :
    ((⟨100, qPayload⟩ : PacketData).timestamp ≠ 0) ∧
    (((processBatch 1 none [⟨100, qPayload⟩, ⟨201 / 2, qPayload⟩]).1).map OutLine.rowTime =
        [(⟨100, qPayload⟩ : PacketData), ⟨201 / 2, qPayload⟩].map
          (fun q => roundPy (q.timestamp - (⟨100, qPayload⟩ : PacketData).timestamp)) ∧
      List.head? (((processBatch 1 none
        [⟨100, qPayload⟩, ⟨201 / 2, qPayload⟩]).1).map OutLine.rowTime) = some 0 ∧
      (List.Chain' (· ≤ ·)
          ([(⟨100, qPayload⟩ : PacketData), ⟨201 / 2, qPayload⟩].map PacketData.timestamp) →
        List.Chain' (· ≤ ·) (((processBatch 1 none
          [⟨100, qPayload⟩, ⟨201 / 2, qPayload⟩]).1).map OutLine.rowTime))) :=
  ⟨by norm_num,
   claim4_first_zero_then_offsets 1 ⟨100, qPayload⟩ [⟨201 / 2, qPayload⟩] (by norm_num)⟩

/-- C5 (counterexample): byte 0 of the queued 36-byte payload is NOT an
unused status byte: it is port 1's connection byte, and the decoder's
port-1 slice is bytes 0–8 of the queued payload, not bytes 1–9. -/
theorem claim5_counterexample :
    PacketData.playerData ⟨0, qPayload⟩ 1 = qPayload.take 9 ∧
    qPayload.take 9 ≠ (qPayload.drop 1).take 9 ∧
    (parsePort (PacketData.playerData ⟨0, qPayload⟩ 1)).isConnected = true ∧
    (parsePort (PacketData.playerData ⟨0, 0 :: qPayload.drop 1⟩ 1)).isConnected = false :=
  ⟨rfl, by decide, by decide, by decide⟩

/-- C5 (amended): the status byte is byte 0 of the ORIGINAL URB payload
and is dropped by the framer before queueing; within the queued payload
port p occupies bytes (p−1)·9 .. p·9, i.e. bytes (p−1)·9+1 .. p·9+1 of
the original payload, and the decoder reads exactly that 9-byte slice. -/
theorem claim5_port_slices (u : URB) (p : ℕ)
    (hp : p = 1 ∨ p = 2 ∨ p = 3 ∨ p = 4) :
    PacketData.playerData u.packet p = ((u.payload.drop 1).drop ((p - 1) * 9)).take 9 ∧
    PacketData.playerData u.packet p = (u.payload.drop ((p - 1) * 9 + 1)).take 9 := by
  rcases hp with h | h | h | h <;> subst h <;>
    exact ⟨by simp [PacketData.playerData, URB.packet, List.drop_drop],
      by simp [PacketData.playerData, URB.packet, List.drop_drop]⟩

theorem claim5_port_slices_witness :
    ((2 : ℕ) = 1 ∨ (2 : ℕ) = 2 ∨ (2 : ℕ) = 3 ∨ (2 : ℕ) = 4) ∧
    (PacketData.playerData urbA.packet 2 =
        ((urbA.payload.drop 1).drop ((2 - 1) * 9)).take 9 ∧
      PacketData.playerData urbA.packet 2 = (urbA.payload.drop ((2 - 1) * 9 + 1)).take 9) :=
  ⟨by decide, claim5_port_slices urbA 2 (by decide)⟩

/-- C6: for every value of byte 1 of a port slice, the face-button and
D-pad bits extracted by `set_face_buttons` and `set_dpad` reassemble to
the original byte via A + 2B + 4X + 8Y + 16·DpadLeft + 32·DpadRight +
64·DpadDown + 128·DpadUp. -/
theorem claim6_bitfield_roundtrip (d : List ℕ) (h : d.getD 1 0 < 256) :
    (parsePort d).a + 2 * (parsePort d).b + 4 * (parsePort d).x + 8 * (parsePort d).y +
      16 * (parsePort d).dpadLeft + 32 * (parsePort d).dpadRight +
      64 * (parsePort d).dpadDown + 128 * (parsePort d).dpadUp = d.getD 1 0 := by
  simp only [parsePort, setFaceButtons, setDpad, setOtherButtons]
  omega

theorem claim6_bitfield_roundtrip_witness :
    ([20, 173, 2, 0, 0, 0, 0, 0, 0] : List ℕ).getD 1 0 < 256 ∧
    (parsePort [20, 173, 2, 0, 0, 0, 0, 0, 0]).a +
      2 * (parsePort [20, 173, 2, 0, 0, 0, 0, 0, 0]).b +
      4 * (parsePort [20, 173, 2, 0, 0, 0, 0, 0, 0]).x +
      8 * (parsePort [20, 173, 2, 0, 0, 0, 0, 0, 0]).y +
      16 * (parsePort [20, 173, 2, 0, 0, 0, 0, 0, 0]).dpadLeft +
      32 * (parsePort [20, 173, 2, 0, 0, 0, 0, 0, 0]).dpadRight +
      64 * (parsePort [20, 173, 2, 0, 0, 0, 0, 0, 0]).dpadDown +
      128 * (parsePort [20, 173, 2, 0, 0, 0, 0, 0, 0]).dpadUp =
      ([20, 173, 2, 0, 0, 0, 0, 0, 0] : List ℕ).getD 1 0 :=
  ⟨by decide, claim6_bitfield_roundtrip [20, 173, 2, 0, 0, 0, 0, 0, 0] (by decide)⟩

/-- C7: when the framer's cursor rests on a complete 48-byte header whose
bus_id field differs from the configured bus, abort is set and no payload
at or after that position is ever emitted — in that batch or any later
chunk.  The final state after the misaligned stream and arbitrarily many
further chunks carries only the packets of the records before the
insertion point, with `aborted = true`. -/
theorem claim7_misalignment_halts (cfg : Config) (recs : List URB) (bad : List ℕ)
    (more : List (List ℕ))
    (hok : ∀ u ∈ recs, u.wfRec ∧ u.busId = cfg.busNumber)
    (hcut : noCut cfg none recs = true)
    (h48 : 48 ≤ bad.length) (hbus : readLE bad 12 2 ≠ cfg.busNumber) :
    (∀ (ws : List ℕ) (ts : Option ℚ), ¬ ws.length < 48 → readLE ws 12 2 ≠ cfg.busNumber →
      formatLoop cfg ws ts = ⟨[], ws, ts, LoopExit.abort⟩) ∧
    runFramer cfg (((recs.map URB.encode).flatten ++ bad) :: more) =
      ⟨bad, threadTs cfg none recs, joinEmissions cfg recs, true⟩ := by
  refine ⟨fun ws ts h1 h2 => formatLoop_abort cfg ws ts h1 h2, ?_⟩
  unfold runFramer
  rw [List.foldl_cons]
  rw [framerStep_abort_tail cfg recs bad none [] hok hcut (by omega) hbus
    (by
      intro hemp
      have h0 : ((recs.map URB.encode).flatten ++ bad) = [] := List.isEmpty_iff.mp hemp
      have hl : ((recs.map URB.encode).flatten ++ bad).length = 0 := by rw [h0]; rfl
      rw [List.length_append] at hl
      omega)]
  rw [framer_absorb cfg more _ rfl]
  rfl

theorem claim7_misalignment_halts_witness :
    ((∀ u ∈ [urbA], u.wfRec ∧ u.busId = cfgS.busNumber) ∧
      noCut cfgS none [urbA] = true ∧
      48 ≤ (List.replicate 48 0 : List ℕ).length ∧
      readLE (List.replicate 48 0) 12 2 ≠ cfgS.busNumber) ∧
    ((∀ (ws : List ℕ) (ts : Option ℚ), ¬ ws.length < 48 → readLE ws 12 2 ≠ cfgS.busNumber →
        formatLoop cfgS ws ts = ⟨[], ws, ts, LoopExit.abort⟩) ∧
      runFramer cfgS ((([urbA].map URB.encode).flatten ++ List.replicate 48 0) :: [[5]]) =
        ⟨List.replicate 48 0, threadTs cfgS none [urbA], joinEmissions cfgS [urbA], true⟩) :=
  ⟨⟨by decide, noCutA, by decide, by decide⟩,
   claim7_misalignment_halts cfgS [urbA] (List.replicate 48 0) [[5]] (by decide) noCutA
     (by decide) (by decide)⟩

/-- C8: for `ts_usec < 10^6`, the decimal string
`f"{ts_sec}.{str(ts_usec).zfill(6)}"` the framer builds has exact
rational value `ts_sec + ts_usec·10⁻⁶`, so the float produced by
`float(...)` is the correct rounding of that rational. -/
theorem claim8_timestamp_exact (sec usec : ℕ) (h : usec < 10 ^ 6) :
    parsedTime sec usec = (sec : ℚ) + (usec : ℚ) / 10 ^ 6 :=
  parsedTime_eq sec usec h

theorem claim8_timestamp_exact_witness :
    500001 < 10 ^ 6 ∧ parsedTime 100 500001 = (100 : ℚ) + (500001 : ℚ) / 10 ^ 6 :=
  ⟨by norm_num, claim8_timestamp_exact 100 500001 (by norm_num)⟩

/-- C9: the output sink receives the exact header row of
`CaptureData.data_format` as its first line, before any data row and
before any abort-triggered return; every other line is a data row; and
when abort is already set at the first loop iteration the output is
exactly the header row. -/
theorem claim9_header_first (port : ℕ) (steps : List RecordStep)
    (batch : List PacketData) (ep : Bool) (rest : List RecordStep) :
    List.head? (recordData port steps) = some (OutLine.headerRow dataFormat) ∧
    (∀ l ∈ (recordData port steps).tail, ∃ t ps, l = OutLine.row t ps) ∧
    recordData port (⟨true, batch, ep⟩ :: rest) = [OutLine.headerRow dataFormat] := by
  refine ⟨rfl, ?_, ?_⟩
  · intro l hl
    exact recordLoop_rows port steps none l hl
  · unfold recordData recordLoop
    rfl

/-- C10: a bus_id mismatch partway through a batch still publishes the
records already parsed from earlier positions of that batch: the queue
receives exactly the accepted packets preceding the mismatch even though
the same pass sets abort. -/
theorem claim10_publish_before_abort (cfg : Config) (recs : List URB) (bad : List ℕ)
    (hok : ∀ u ∈ recs, u.wfRec ∧ u.busId = cfg.busNumber)
    (hcut : noCut cfg none recs = true)
    (h48 : 48 ≤ bad.length) (hbus : readLE bad 12 2 ≠ cfg.busNumber) :
    (runFramer cfg [(recs.map URB.encode).flatten ++ bad]).qOut = joinEmissions cfg recs ∧
    (runFramer cfg [(recs.map URB.encode).flatten ++ bad]).aborted = true := by
  unfold runFramer
  rw [List.foldl_cons, List.foldl_nil]
  rw [framerStep_abort_tail cfg recs bad none [] hok hcut (by omega) hbus
    (by
      intro hemp
      have h0 : ((recs.map URB.encode).flatten ++ bad) = [] := List.isEmpty_iff.mp hemp
      have hl : ((recs.map URB.encode).flatten ++ bad).length = 0 := by rw [h0]; rfl
      rw [List.length_append] at hl
      omega)]
  exact ⟨rfl, rfl⟩

theorem claim10_publish_before_abort_witness :
    ((∀ u ∈ [urbA], u.wfRec ∧ u.busId = cfgS.busNumber) ∧
      noCut cfgS none [urbA] = true ∧
      48 ≤ (List.replicate 60 1 : List ℕ).length ∧
      readLE (List.replicate 60 1) 12 2 ≠ cfgS.busNumber) ∧
    ((runFramer cfgS [([urbA].map URB.encode).flatten ++ List.replicate 60 1]).qOut =
        joinEmissions cfgS [urbA] ∧
      (runFramer cfgS [([urbA].map URB.encode).flatten ++ List.replicate 60 1]).aborted = true) :=
  ⟨⟨by decide, noCutA, by decide, by decide⟩,
   claim10_publish_before_abort cfgS [urbA] (List.replicate 60 1) (by decide) noCutA
     (by decide) (by decide)⟩

end GCC
